import Mathlib

/-!
Verification of the MSSQLDocumenter batch documentation pipeline.

Shallow embedding of `src/python/services/` (documenter.py,
db_object_documenter.py, table/view/procedure/function_documenter.py,
vector_store.py, llm_client.py).  External I/O (pyodbc queries, the LLM
provider, the ChromaDB client) is represented by explicit environment
values carrying each call's outcome; Python exceptions are represented by
`Except String`.
-/

namespace MSSQLDocumenter

/-- Python truthiness of an optional string (`if x:` with `x: Optional[str]`):
`None` and the empty string are falsy. -/
def pyTruthyStr : Option String → Bool
  | none => false
  | some s => !s.isEmpty

/-- Python truthiness of an optional integer (`if x:` with `x: Optional[int]`):
`None` and `0` are falsy. -/
def pyTruthyInt : Option Int → Bool
  | none => false
  | some n => n != 0

/-- The fields of a column / parameter / return-type metadata row that
`DatabaseObjectDocumenter._format_type_info` reads: `data_type`,
`max_length` (with `-1` as the "not applicable" marker), and the optional
`precision` and `scale` (a SQL NULL arrives in Python as `None`). -/
structure TypeInfo where
  data_type : String
  max_length : Int
  precision : Option Int
  scale : Option Int
deriving DecidableEq

/-- `DatabaseObjectDocumenter._format_type_info`
(db_object_documenter.py lines 46-56):

    type_str = type_info.data_type
    if type_info.max_length != -1:
        type_str += f"({type_info.max_length})"
    elif type_info.precision:
        type_str += f"({type_info.precision}"
        if type_info.scale:
            type_str += f",{type_info.scale}"
        type_str += ")"
    return type_str

The `elif type_info.precision:` and `if type_info.scale:` branches use
Python truthiness, so `None` and `0` both skip the branch. -/
def format_type_info (ti : TypeInfo) : String :=
  if ti.max_length != -1 then
    ti.data_type ++ "(" ++ toString ti.max_length ++ ")"
  else if pyTruthyInt ti.precision then
    let withP := ti.data_type ++ "(" ++ toString (ti.precision.getD 0)
    (if pyTruthyInt ti.scale then withP ++ "," ++ toString (ti.scale.getD 0) else withP) ++ ")"
  else
    ti.data_type

/-- C8, counterexample. The claim says that with `max_length == -1`,
`precision` present and `scale` present the result is
`"{data_type}({precision},{scale})"`.  For `DECIMAL(10,0)` metadata
(`precision = 10`, `scale = 0`, both present) the code's `if type_info.scale:`
truthiness test treats the present-but-zero scale as absent and renders
`"DECIMAL(10)"`, not `"DECIMAL(10,0)"`. -/
theorem format_type_info_zero_scale :
    format_type_info ⟨"DECIMAL", -1, some 10, some 0⟩ ≠ "DECIMAL(10,0)" ∧
    format_type_info ⟨"DECIMAL", -1, some 10, some 0⟩ = "DECIMAL(10)" := by
  constructor <;> decide

/-- C8 (amended): the type formatter is a total function on TypeInfo records
(always returns a string by construction); when `max_length != -1` the result
is `"{data_type}({max_length})"`; when `max_length == -1` and `precision` is
present *and nonzero* (Python truthiness) the result is
`"{data_type}({precision})"` if `scale` is absent or zero and
`"{data_type}({precision},{scale})"` if `scale` is present and nonzero; when
`max_length == -1` and `precision` is absent or zero the result is the bare
`data_type`. -/
theorem format_type_info_spec (ti : TypeInfo) :
    (ti.max_length ≠ -1 →
      format_type_info ti = ti.data_type ++ "(" ++ toString ti.max_length ++ ")") ∧
    (ti.max_length = -1 → ∀ p, ti.precision = some p → p ≠ 0 →
      ((ti.scale = none ∨ ti.scale = some 0) →
        format_type_info ti = ti.data_type ++ "(" ++ toString p ++ ")") ∧
      (∀ sc, ti.scale = some sc → sc ≠ 0 →
        format_type_info ti = ti.data_type ++ "(" ++ toString p ++ "," ++ toString sc ++ ")")) ∧
    (ti.max_length = -1 → (ti.precision = none ∨ ti.precision = some 0) →
      format_type_info ti = ti.data_type) := by
  refine ⟨fun h => ?_, fun h p hp hp0 => ⟨fun hs => ?_, fun sc hsc hsc0 => ?_⟩, fun h hpre => ?_⟩
  · have hml : (ti.max_length != -1) = true := by simpa using h
    simp [format_type_info, hml]
  · have hml : (ti.max_length != -1) = false := by simp [h]
    have htr : pyTruthyInt (some p) = true := by simp [pyTruthyInt, hp0]
    have hstr : pyTruthyInt ti.scale = false := by
      rcases hs with hs | hs <;> simp [pyTruthyInt, hs]
    simp [format_type_info, hml, htr, hstr, hp]
  · have hml : (ti.max_length != -1) = false := by simp [h]
    have htr : pyTruthyInt (some p) = true := by simp [pyTruthyInt, hp0]
    have hstr : pyTruthyInt (some sc) = true := by simp [pyTruthyInt, hsc0]
    simp [format_type_info, hml, htr, hstr, hp, hsc]
  · have hml : (ti.max_length != -1) = false := by simp [h]
    have htr : pyTruthyInt ti.precision = false := by
      rcases hpre with hpre | hpre <;> simp [pyTruthyInt, hpre]
    simp [format_type_info, hml, htr]

/-- C8 witness: the four shapes at concrete inputs. -/
theorem format_type_info_spec_witness :
    format_type_info ⟨"VARCHAR", 50, none, none⟩ = "VARCHAR(50)" ∧
    format_type_info ⟨"DECIMAL", -1, some 10, some 2⟩ = "DECIMAL(10,2)" ∧
    format_type_info ⟨"NUMERIC", -1, some 10, none⟩ = "NUMERIC(10)" ∧
    format_type_info ⟨"INT", -1, none, none⟩ = "INT" :=
  ⟨(format_type_info_spec _).1 (by decide),
   ((format_type_info_spec _).2.1 rfl 10 rfl (by decide)).2 2 rfl (by decide),
   ((format_type_info_spec _).2.1 rfl 10 rfl (by decide)).1 (Or.inl rfl),
   (format_type_info_spec _).2.2 rfl (Or.inl rfl)⟩

/-! ## Object documenters (table/view/procedure/function_documenter.py)

Each `document()` is embedded as a pure function of the object's
`(schema, name)` and a `DocEnv` recording the outcome of every external
call the documenter makes: each pyodbc metadata query, the definition
query, the LLM call made by `_get_llm_analysis`, and the vector-store
upsert.  The result is the Python outcome (`Except String Unit`, error =
raised exception) together with the list of records actually written to
the Document Index. -/

/-- A scalar metadata value as stored by `add_documentation`. -/
inductive PyVal where
  | pint (n : Int)
  | pbool (b : Bool)
  | pstr (s : String)
deriving DecidableEq

/-- A row of the TABLE_COLUMNS_QUERY / VIEW_COLUMNS_QUERY result, with the
fields the documenters read. -/
structure TableCol extends TypeInfo where
  column_name : String
  is_nullable : Bool
  description : Option String
deriving DecidableEq

/-- A row of INDEXES_QUERY. -/
structure IndexRow where
  index_name : String
  type_desc : String
  is_unique : Bool
  columns : String
deriving DecidableEq

/-- A row of FOREIGN_KEYS_QUERY. -/
structure FkRow where
  fk_name : String
  referenced_schema : String
  referenced_table : String
  columns : String
  referenced_columns : String
deriving DecidableEq

/-- A row of PROCEDURE_PARAMS_QUERY. -/
structure ProcParam extends TypeInfo where
  param_name : String
  is_output : Bool
  description : Option String
deriving DecidableEq

/-- A row of FUNCTION_PARAMS_QUERY. -/
structure FuncParam extends TypeInfo where
  param_name : String
  description : Option String
deriving DecidableEq

/-- The row of FUNCTION_RETURN_TYPE_QUERY (function_documenter.py reads
`return_type`, `max_length`, `precision`, `scale`). -/
structure RetRow where
  return_type : String
  max_length : Int
  precision : Option Int
  scale : Option Int
deriving DecidableEq

/-- One record written to the Document Index by `_store_documentation` /
`VectorStore.add_documentation`. -/
structure StoredDoc where
  schema : String
  name : String
  obj_type : String
  content : String
  metadata : List (String × PyVal)
deriving DecidableEq

/-- Outcomes of every external call a documenter can make.  An `.error`
models the Python call raising; `definition_rows` is the raw result of
`_execute_query(OBJECT_DEFINITION_QUERY, schema, name)` (each row's first
column may be SQL NULL, hence `Option String`); `enrich` is the outcome of
the provider call inside `_get_llm_analysis`; `storeOk` tells whether the
vector-store upsert succeeds. -/
structure DocEnv where
  table_columns : Except String (List TableCol)
  view_columns : Except String (List TableCol)
  indexes : Except String (List IndexRow)
  foreign_keys : Except String (List FkRow)
  procedure_params : Except String (List ProcParam)
  function_params : Except String (List FuncParam)
  function_return_type : Except String (List RetRow)
  definition_rows : Except String (List (Option String))
  enrich : Except String String
  storeOk : Bool

/-- `DatabaseObjectDocumenter._get_definition`: returns `results[0][0] if
results else None`, and catches any query exception, returning `None`. -/
def get_definition : Except String (List (Option String)) → Option String
  | .error _ => none
  | .ok [] => none
  | .ok (r :: _) => r

/-- `DatabaseObjectDocumenter._get_llm_analysis`: dispatches on the type
tag (all four tags are supported; others yield `None`), catches any
provider error and returns `None`, otherwise returns the provider's
reply. -/
def get_llm_analysis (enrich : Except String String) (obj_type : String) : Option String :=
  if obj_type = "table" ∨ obj_type = "view" ∨ obj_type = "procedure" ∨ obj_type = "function" then
    match enrich with
    | .ok s => some s
    | .error _ => none
  else none

/-- `if col.description: doc += f"\n  Description: {col.description}"`. -/
def descSuffix (d : Option String) : String :=
  match d with
  | some s => if s.isEmpty then "" else "\n  Description: " ++ s
  | none => ""

/-- `if analysis: doc += f"\n\nAnalysis:\n{analysis}"` (analysis is falsy
when `_get_llm_analysis` returned `None` or the empty string). -/
def analysisSuffix (a : Option String) : String :=
  match a with
  | some s => if s.isEmpty then "" else "\n\nAnalysis:\n" ++ s
  | none => ""

/-- Column block of table/view documentation (the loop over `columns`). -/
def renderColumns (cols : List TableCol) : String :=
  cols.foldl (fun doc col =>
    doc ++ "\n" ++ col.column_name ++ " (" ++ format_type_info col.toTypeInfo ++ ")"
      ++ (if col.is_nullable then "" else " NOT NULL")
      ++ descSuffix col.description) ""

/-- Index block of table documentation (the loop over `indexes`). -/
def renderIndexes (idxs : List IndexRow) : String :=
  idxs.foldl (fun doc idx =>
    doc ++ "\n" ++ idx.index_name ++ " (" ++ idx.type_desc ++ ")"
      ++ (if idx.is_unique then " UNIQUE" else "")
      ++ "\n  Columns: " ++ idx.columns) ""

/-- Foreign-key block of table documentation (the loop over `foreign_keys`). -/
def renderForeignKeys (fks : List FkRow) : String :=
  fks.foldl (fun doc fk =>
    doc ++ "\n" ++ fk.fk_name
      ++ "\n  References: " ++ fk.referenced_schema ++ "." ++ fk.referenced_table
      ++ "\n  Columns: " ++ fk.columns ++ " -> " ++ fk.referenced_columns) ""

/-- Parameter block of procedure documentation. -/
def renderProcParams (ps : List ProcParam) : String :=
  ps.foldl (fun doc param =>
    doc ++ "\n" ++ param.param_name ++ " (" ++ format_type_info param.toTypeInfo ++ ")"
      ++ (if param.is_output then " OUTPUT" else "")
      ++ descSuffix param.description) ""

/-- Parameter block of function documentation (no OUTPUT marker). -/
def renderFuncParams (ps : List FuncParam) : String :=
  ps.foldl (fun doc param =>
    doc ++ "\n" ++ param.param_name ++ " (" ++ format_type_info param.toTypeInfo ++ ")"
      ++ descSuffix param.description) ""

/-- Table documentation text before the optional Analysis section
(table_documenter.py lines 27-52). -/
def tableContent (schema name : String) (cols : List TableCol) (idxs : List IndexRow)
    (fks : List FkRow) : String :=
  "Table: " ++ schema ++ "." ++ name ++ "\n\nColumns:\n" ++ renderColumns cols
    ++ (if idxs.isEmpty then "" else "\n\nIndexes:\n" ++ renderIndexes idxs)
    ++ (if fks.isEmpty then "" else "\n\nForeign Keys:\n" ++ renderForeignKeys fks)

/-- View documentation text before the optional Analysis section. -/
def viewContent (schema name : String) (cols : List TableCol) (defn : String) : String :=
  "View: " ++ schema ++ "." ++ name ++ "\n\nColumns:\n" ++ renderColumns cols
    ++ "\n\nDefinition:\n" ++ defn

/-- Procedure documentation text before the optional Analysis section. -/
def procContent (schema name : String) (ps : List ProcParam) (defn : String) : String :=
  "Stored Procedure: " ++ schema ++ "." ++ name ++ "\n"
    ++ (if ps.isEmpty then "" else "\nParameters:\n" ++ renderProcParams ps)
    ++ "\n\nDefinition:\n" ++ defn

/-- Return-type suffix in function documentation (function_documenter.py
lines 44-50; same truthiness pattern as `_format_type_info`, inlined in
the source). -/
def retTypeSuffix (rt : RetRow) : String :=
  if rt.max_length != -1 then "(" ++ toString rt.max_length ++ ")"
  else if pyTruthyInt rt.precision then
    "(" ++ toString (rt.precision.getD 0)
      ++ (if pyTruthyInt rt.scale then "," ++ toString (rt.scale.getD 0) else "") ++ ")"
  else ""

/-- Function documentation text before the optional Analysis section. -/
def funcContent (schema name : String) (rt : RetRow) (ps : List FuncParam)
    (defn : String) : String :=
  "Function: " ++ schema ++ "." ++ name ++ "\n"
    ++ "\nReturns: " ++ rt.return_type ++ retTypeSuffix rt
    ++ (if ps.isEmpty then "" else "\n\nParameters:\n" ++ renderFuncParams ps)
    ++ "\n\nDefinition:\n" ++ defn

/-- `_store_documentation` → `VectorStore.add_documentation`: on success
exactly one record is upserted, carrying the base metadata
`{schema, name, type}` merged with the variant metadata; on failure the
exception propagates and nothing is written. -/
def storeResult (env : DocEnv) (schema name obj_type content : String)
    (metadata : List (String × PyVal)) : Except String Unit × List StoredDoc :=
  if env.storeOk then
    (.ok (), [⟨schema, name, obj_type, content,
      [("schema", .pstr schema), ("name", .pstr name), ("type", .pstr obj_type)] ++ metadata⟩])
  else (.error "Failed to add documentation", [])

/-- `TableDocumenter.document` (table_documenter.py lines 12-72).  Note:
it runs the columns, indexes and foreign-keys queries only — there is no
definition query in the table variant. -/
def TableDocumenter.document (schema name : String) (env : DocEnv) :
    Except String Unit × List StoredDoc :=
  match env.table_columns with
  | .error e => (.error e, [])
  | .ok columns =>
    match env.indexes with
    | .error e => (.error e, [])
    | .ok indexes =>
      match env.foreign_keys with
      | .error e => (.error e, [])
      | .ok foreign_keys =>
        let doc := tableContent schema name columns indexes foreign_keys
        let analysis := get_llm_analysis env.enrich "table"
        storeResult env schema name "table" (doc ++ analysisSuffix analysis)
          [("column_count", .pint columns.length),
           ("has_indexes", .pbool (!indexes.isEmpty)),
           ("has_foreign_keys", .pbool (!foreign_keys.isEmpty))]

/-- `ViewDocumenter.document` (view_documenter.py lines 12-56). -/
def ViewDocumenter.document (schema name : String) (env : DocEnv) :
    Except String Unit × List StoredDoc :=
  match env.view_columns with
  | .error e => (.error e, [])
  | .ok columns =>
    let definition := get_definition env.definition_rows
    if pyTruthyStr definition then
      let defn := definition.getD ""
      let doc := viewContent schema name columns defn
      let analysis := get_llm_analysis env.enrich "view"
      storeResult env schema name "view" (doc ++ analysisSuffix analysis)
        [("column_count", .pint columns.length),
         ("definition_length", .pint defn.length)]
    else
      (.error ("Could not retrieve definition for view " ++ schema ++ "." ++ name), [])

/-- `ProcedureDocumenter.document` (procedure_documenter.py lines 12-62). -/
def ProcedureDocumenter.document (schema name : String) (env : DocEnv) :
    Except String Unit × List StoredDoc :=
  match env.procedure_params with
  | .error e => (.error e, [])
  | .ok parameters =>
    let definition := get_definition env.definition_rows
    if pyTruthyStr definition then
      let defn := definition.getD ""
      let doc := procContent schema name parameters defn
      let analysis := get_llm_analysis env.enrich "procedure"
      storeResult env schema name "procedure" (doc ++ analysisSuffix analysis)
        [("parameter_count", .pint parameters.length),
         ("definition_length", .pint defn.length)]
    else
      (.error ("Could not retrieve definition for procedure " ++ schema ++ "." ++ name), [])

/-- `FunctionDocumenter.document` (function_documenter.py lines 12-81). -/
def FunctionDocumenter.document (schema name : String) (env : DocEnv) :
    Except String Unit × List StoredDoc :=
  match env.function_params with
  | .error e => (.error e, [])
  | .ok parameters =>
    match env.function_return_type with
    | .error e => (.error e, [])
    | .ok [] =>
      (.error ("Could not retrieve return type for function " ++ schema ++ "." ++ name), [])
    | .ok (return_type :: _) =>
      let definition := get_definition env.definition_rows
      if pyTruthyStr definition then
        let defn := definition.getD ""
        let doc := funcContent schema name return_type parameters defn
        let analysis := get_llm_analysis env.enrich "function"
        storeResult env schema name "function" (doc ++ analysisSuffix analysis)
          [("parameter_count", .pint parameters.length),
           ("definition_length", .pint defn.length),
           ("return_type", .pstr return_type.return_type)]
      else
        (.error ("Could not retrieve definition for function " ++ schema ++ "." ++ name), [])

/-- Write discipline of the table variant: one write on success, none on
failure. -/
theorem table_write_discipline (schema name : String) (env : DocEnv) :
    ((TableDocumenter.document schema name env).1 = .ok () →
      (TableDocumenter.document schema name env).2.length = 1) ∧
    (∀ e, (TableDocumenter.document schema name env).1 = .error e →
      (TableDocumenter.document schema name env).2 = []) := by
  cases h1 : env.table_columns with
  | error e => simp [TableDocumenter.document, h1]
  | ok cols =>
    cases h2 : env.indexes with
    | error e => simp [TableDocumenter.document, h1, h2]
    | ok idxs =>
      cases h3 : env.foreign_keys with
      | error e => simp [TableDocumenter.document, h1, h2, h3]
      | ok fks =>
        cases hS : env.storeOk <;>
          simp [TableDocumenter.document, h1, h2, h3, storeResult, hS]

/-- Write discipline of the view variant. -/
theorem view_write_discipline (schema name : String) (env : DocEnv) :
    ((ViewDocumenter.document schema name env).1 = .ok () →
      (ViewDocumenter.document schema name env).2.length = 1) ∧
    (∀ e, (ViewDocumenter.document schema name env).1 = .error e →
      (ViewDocumenter.document schema name env).2 = []) := by
  cases h1 : env.view_columns with
  | error e => simp [ViewDocumenter.document, h1]
  | ok cols =>
    cases hD : pyTruthyStr (get_definition env.definition_rows) <;>
      cases hS : env.storeOk <;>
        simp [ViewDocumenter.document, h1, hD, storeResult, hS]

/-- Write discipline of the procedure variant. -/
theorem procedure_write_discipline (schema name : String) (env : DocEnv) :
    ((ProcedureDocumenter.document schema name env).1 = .ok () →
      (ProcedureDocumenter.document schema name env).2.length = 1) ∧
    (∀ e, (ProcedureDocumenter.document schema name env).1 = .error e →
      (ProcedureDocumenter.document schema name env).2 = []) := by
  cases h1 : env.procedure_params with
  | error e => simp [ProcedureDocumenter.document, h1]
  | ok ps =>
    cases hD : pyTruthyStr (get_definition env.definition_rows) <;>
      cases hS : env.storeOk <;>
        simp [ProcedureDocumenter.document, h1, hD, storeResult, hS]

/-- Write discipline of the function variant. -/
theorem function_write_discipline (schema name : String) (env : DocEnv) :
    ((FunctionDocumenter.document schema name env).1 = .ok () →
      (FunctionDocumenter.document schema name env).2.length = 1) ∧
    (∀ e, (FunctionDocumenter.document schema name env).1 = .error e →
      (FunctionDocumenter.document schema name env).2 = []) := by
  cases h1 : env.function_params with
  | error e => simp [FunctionDocumenter.document, h1]
  | ok ps =>
    cases h2 : env.function_return_type with
    | error e => simp [FunctionDocumenter.document, h1, h2]
    | ok rts =>
      cases rts with
      | nil => simp [FunctionDocumenter.document, h1, h2]
      | cons rt rest =>
        cases hD : pyTruthyStr (get_definition env.definition_rows) <;>
          cases hS : env.storeOk <;>
            simp [FunctionDocumenter.document, h1, h2, hD, storeResult, hS]

/-- A fully successful environment whose definition query returns no row:
every metadata query succeeds, the LLM is unavailable, the store works,
and `OBJECT_DEFINITION_QUERY` yields zero rows. -/
def envNoDefinition : DocEnv :=
  { table_columns := .ok [⟨⟨"INT", -1, some 10, none⟩, "Id", false, none⟩]
    view_columns := .ok []
    indexes := .ok []
    foreign_keys := .ok []
    procedure_params := .ok []
    function_params := .ok []
    function_return_type := .ok []
    definition_rows := .ok []
    enrich := .error "LLM unavailable"
    storeOk := true }

/-- C2, counterexample.  The claim asserts that *every* variant fails with
a definition-not-found condition, without persisting, when the shared
definition query returns no row.  The table variant never runs the
definition query: with `definition_rows = .ok []` its `document()`
succeeds and persists one record. -/
theorem table_succeeds_without_definition :
    envNoDefinition.definition_rows = .ok [] ∧
    (TableDocumenter.document "dbo" "Orders" envNoDefinition).1 = .ok () ∧
    (TableDocumenter.document "dbo" "Orders" envNoDefinition).2.length = 1 :=
  ⟨rfl, rfl, rfl⟩

/-- C2 (amended): every variant writes exactly one record to the Document
Index on success and nothing on failure; the view, procedure and function
variants fail with a "Could not retrieve definition" error, persisting
nothing, when the definition query returns no row (given the metadata
queries that run before it succeed); the table variant does not consult
the definition query at all, so its outcome is independent of it. -/
theorem documenter_write_contract (schema name : String) (env : DocEnv) :
    (((TableDocumenter.document schema name env).1 = .ok () →
        (TableDocumenter.document schema name env).2.length = 1) ∧
      (∀ e, (TableDocumenter.document schema name env).1 = .error e →
        (TableDocumenter.document schema name env).2 = [])) ∧
    (((ViewDocumenter.document schema name env).1 = .ok () →
        (ViewDocumenter.document schema name env).2.length = 1) ∧
      (∀ e, (ViewDocumenter.document schema name env).1 = .error e →
        (ViewDocumenter.document schema name env).2 = [])) ∧
    (((ProcedureDocumenter.document schema name env).1 = .ok () →
        (ProcedureDocumenter.document schema name env).2.length = 1) ∧
      (∀ e, (ProcedureDocumenter.document schema name env).1 = .error e →
        (ProcedureDocumenter.document schema name env).2 = [])) ∧
    (((FunctionDocumenter.document schema name env).1 = .ok () →
        (FunctionDocumenter.document schema name env).2.length = 1) ∧
      (∀ e, (FunctionDocumenter.document schema name env).1 = .error e →
        (FunctionDocumenter.document schema name env).2 = [])) ∧
    (∀ cols, env.view_columns = .ok cols → env.definition_rows = .ok [] →
      ViewDocumenter.document schema name env =
        (.error ("Could not retrieve definition for view " ++ schema ++ "." ++ name), [])) ∧
    (∀ ps, env.procedure_params = .ok ps → env.definition_rows = .ok [] →
      ProcedureDocumenter.document schema name env =
        (.error ("Could not retrieve definition for procedure " ++ schema ++ "." ++ name), [])) ∧
    (∀ ps rt rts, env.function_params = .ok ps →
      env.function_return_type = .ok (rt :: rts) → env.definition_rows = .ok [] →
      FunctionDocumenter.document schema name env =
        (.error ("Could not retrieve definition for function " ++ schema ++ "." ++ name), [])) ∧
    (∀ d, TableDocumenter.document schema name { env with definition_rows := d } =
      TableDocumenter.document schema name env) := by
  refine ⟨table_write_discipline schema name env, view_write_discipline schema name env,
    procedure_write_discipline schema name env, function_write_discipline schema name env,
    fun cols h1 h2 => ?_, fun ps h1 h2 => ?_, fun ps rt rts h1 h2 h3 => ?_, fun d => ?_⟩
  · simp [ViewDocumenter.document, h1, h2, get_definition, pyTruthyStr]
  · simp [ProcedureDocumenter.document, h1, h2, get_definition, pyTruthyStr]
  · simp [FunctionDocumenter.document, h1, h2, h3, get_definition, pyTruthyStr]
  · simp [TableDocumenter.document, storeResult]

/-- C2 witness: the definition-not-found branches at a concrete
environment. -/
theorem documenter_write_contract_witness :
    ViewDocumenter.document "dbo" "V1" envNoDefinition =
      (.error "Could not retrieve definition for view dbo.V1", []) ∧
    ProcedureDocumenter.document "dbo" "P1" envNoDefinition =
      (.error "Could not retrieve definition for procedure dbo.P1", []) ∧
    (TableDocumenter.document "dbo" "Orders"
        { envNoDefinition with definition_rows := .error "query failed" } =
      TableDocumenter.document "dbo" "Orders" envNoDefinition) :=
  ⟨(documenter_write_contract "dbo" "V1" envNoDefinition).2.2.2.2.1 [] rfl rfl,
    (documenter_write_contract "dbo" "P1" envNoDefinition).2.2.2.2.2.1 [] rfl rfl,
    (documenter_write_contract "dbo" "Orders" envNoDefinition).2.2.2.2.2.2.2
      (.error "query failed")⟩

/-- C3: for every variant, when the enrichment call errors (any provider
exception — `_get_llm_analysis` catches it and returns `None`), `document()`
still completes and persists one record whose content is exactly the
variant's base documentation with no Analysis section; and when enrichment
returns a narrative `a`, the persisted content is the base documentation
with `"\n\nAnalysis:\n" ++ a` appended exactly when `a` is non-empty
(Python truthiness of the `if analysis:` guard). -/
theorem enrichment_failure_degrades (schema name : String) (env : DocEnv) :
    (∀ cols idxs fks, env.table_columns = .ok cols → env.indexes = .ok idxs →
      env.foreign_keys = .ok fks → env.storeOk = true →
      (∀ e, env.enrich = .error e →
        (TableDocumenter.document schema name env).1 = .ok () ∧
        (TableDocumenter.document schema name env).2.map StoredDoc.content =
          [tableContent schema name cols idxs fks]) ∧
      (∀ a, env.enrich = .ok a →
        (TableDocumenter.document schema name env).1 = .ok () ∧
        (TableDocumenter.document schema name env).2.map StoredDoc.content =
          [tableContent schema name cols idxs fks
            ++ (if a.isEmpty then "" else "\n\nAnalysis:\n" ++ a)])) ∧
    (∀ cols defn, env.view_columns = .ok cols →
      get_definition env.definition_rows = some defn → defn ≠ "" → env.storeOk = true →
      (∀ e, env.enrich = .error e →
        (ViewDocumenter.document schema name env).1 = .ok () ∧
        (ViewDocumenter.document schema name env).2.map StoredDoc.content =
          [viewContent schema name cols defn]) ∧
      (∀ a, env.enrich = .ok a →
        (ViewDocumenter.document schema name env).1 = .ok () ∧
        (ViewDocumenter.document schema name env).2.map StoredDoc.content =
          [viewContent schema name cols defn
            ++ (if a.isEmpty then "" else "\n\nAnalysis:\n" ++ a)])) ∧
    (∀ ps defn, env.procedure_params = .ok ps →
      get_definition env.definition_rows = some defn → defn ≠ "" → env.storeOk = true →
      (∀ e, env.enrich = .error e →
        (ProcedureDocumenter.document schema name env).1 = .ok () ∧
        (ProcedureDocumenter.document schema name env).2.map StoredDoc.content =
          [procContent schema name ps defn]) ∧
      (∀ a, env.enrich = .ok a →
        (ProcedureDocumenter.document schema name env).1 = .ok () ∧
        (ProcedureDocumenter.document schema name env).2.map StoredDoc.content =
          [procContent schema name ps defn
            ++ (if a.isEmpty then "" else "\n\nAnalysis:\n" ++ a)])) ∧
    (∀ ps rt rts defn, env.function_params = .ok ps →
      env.function_return_type = .ok (rt :: rts) →
      get_definition env.definition_rows = some defn → defn ≠ "" → env.storeOk = true →
      (∀ e, env.enrich = .error e →
        (FunctionDocumenter.document schema name env).1 = .ok () ∧
        (FunctionDocumenter.document schema name env).2.map StoredDoc.content =
          [funcContent schema name rt ps defn]) ∧
      (∀ a, env.enrich = .ok a →
        (FunctionDocumenter.document schema name env).1 = .ok () ∧
        (FunctionDocumenter.document schema name env).2.map StoredDoc.content =
          [funcContent schema name rt ps defn
            ++ (if a.isEmpty then "" else "\n\nAnalysis:\n" ++ a)])) := by
  have hdef : ∀ defn : String, defn ≠ "" → pyTruthyStr (some defn) = true := by
    intro d hd
    have h0 : d.isEmpty = false := by
      cases h : d.isEmpty
      · rfl
      · exact absurd ((String.isEmpty_iff d).mp h) hd
    simp [pyTruthyStr, h0]
  refine ⟨fun cols idxs fks h1 h2 h3 hS => ⟨fun e hE => ?_, fun a hA => ?_⟩,
    fun cols defn h1 hD hne hS => ⟨fun e hE => ?_, fun a hA => ?_⟩,
    fun ps defn h1 hD hne hS => ⟨fun e hE => ?_, fun a hA => ?_⟩,
    fun ps rt rts defn h1 h2 hD hne hS => ⟨fun e hE => ?_, fun a hA => ?_⟩⟩
  · simp [TableDocumenter.document, h1, h2, h3, storeResult, hS,
      get_llm_analysis, hE, analysisSuffix]
  · by_cases ha : a.isEmpty = true <;>
      simp [TableDocumenter.document, h1, h2, h3, storeResult, hS,
        get_llm_analysis, hA, analysisSuffix, ha]
  · simp [ViewDocumenter.document, h1, hD, hdef defn hne, storeResult, hS,
      get_llm_analysis, hE, analysisSuffix]
  · by_cases ha : a.isEmpty = true <;>
      simp [ViewDocumenter.document, h1, hD, hdef defn hne, storeResult, hS,
        get_llm_analysis, hA, analysisSuffix, ha]
  · simp [ProcedureDocumenter.document, h1, hD, hdef defn hne, storeResult, hS,
      get_llm_analysis, hE, analysisSuffix]
  · by_cases ha : a.isEmpty = true <;>
      simp [ProcedureDocumenter.document, h1, hD, hdef defn hne, storeResult, hS,
        get_llm_analysis, hA, analysisSuffix, ha]
  · simp [FunctionDocumenter.document, h1, h2, hD, hdef defn hne, storeResult, hS,
      get_llm_analysis, hE, analysisSuffix]
  · by_cases ha : a.isEmpty = true <;>
      simp [FunctionDocumenter.document, h1, h2, hD, hdef defn hne, storeResult, hS,
        get_llm_analysis, hA, analysisSuffix, ha]

/-- Concrete environment for the C3 witness: every query succeeds, the
definition is present, the store works, the LLM errors out. -/
def envLLMDown : DocEnv :=
  { envNoDefinition with definition_rows := .ok [some "SELECT 1"] }

/-- C3 witness: with the LLM unavailable, the table documenter persists
base content without an Analysis section; with a narrative it appends one. -/
theorem enrichment_failure_degrades_witness :
    ((TableDocumenter.document "dbo" "Orders" envLLMDown).1 = .ok () ∧
      (TableDocumenter.document "dbo" "Orders" envLLMDown).2.map StoredDoc.content =
        [tableContent "dbo" "Orders"
          [⟨⟨"INT", -1, some 10, none⟩, "Id", false, none⟩] [] []]) ∧
    ((ViewDocumenter.document "dbo" "V1" { envLLMDown with enrich := .ok "narrative" }).1 =
        .ok () ∧
      (ViewDocumenter.document "dbo" "V1"
          { envLLMDown with enrich := .ok "narrative" }).2.map StoredDoc.content =
        [viewContent "dbo" "V1" [] "SELECT 1"
          ++ (if ("narrative" : String).isEmpty then "" else "\n\nAnalysis:\n" ++ "narrative")]) :=
  ⟨((enrichment_failure_degrades "dbo" "Orders" envLLMDown).1
      _ _ _ rfl rfl rfl rfl).1 "LLM unavailable" rfl,
   ((enrichment_failure_degrades "dbo" "V1" { envLLMDown with enrich := .ok "narrative" }).2.1
      [] "SELECT 1" rfl rfl (by decide) rfl).2 "narrative" rfl⟩

/-- C10: `_get_definition` catches any error from the definition query and
returns `None`, exactly as when the query returns zero rows; callers
cannot distinguish the two (the view documenter behaves identically on
both environments), and both produce the same fatal
"Could not retrieve definition" failure without persisting anything. -/
theorem get_definition_error_hidden :
    (∀ e, get_definition (.error e) = none) ∧
    get_definition (.ok []) = none ∧
    (∀ e, get_definition (.error e) = get_definition (.ok [])) ∧
    (∀ (schema name : String) (env : DocEnv) (e : String),
      ViewDocumenter.document schema name { env with definition_rows := .error e } =
        ViewDocumenter.document schema name { env with definition_rows := .ok [] }) ∧
    (∀ (schema name : String) (env : DocEnv) cols e, env.view_columns = .ok cols →
      env.definition_rows = .error e →
      ViewDocumenter.document schema name env =
        (.error ("Could not retrieve definition for view " ++ schema ++ "." ++ name), [])) := by
  refine ⟨fun e => rfl, rfl, fun e => rfl, fun schema name env e => ?_,
    fun schema name env cols e h1 h2 => ?_⟩
  · simp [ViewDocumenter.document, get_definition, pyTruthyStr]
  · simp [ViewDocumenter.document, h1, h2, get_definition, pyTruthyStr]

/-- C10 witness: error and empty-result environments at concrete values. -/
theorem get_definition_error_hidden_witness :
    get_definition (.error "timeout") = none ∧
    (ViewDocumenter.document "dbo" "V1"
        { envNoDefinition with definition_rows := .error "timeout" } =
      ViewDocumenter.document "dbo" "V1"
        { envNoDefinition with definition_rows := .ok [] }) ∧
    ViewDocumenter.document "dbo" "V1"
        { envNoDefinition with definition_rows := .error "timeout" } =
      (.error "Could not retrieve definition for view dbo.V1", []) :=
  ⟨get_definition_error_hidden.1 "timeout",
   get_definition_error_hidden.2.2.2.1 "dbo" "V1" envNoDefinition "timeout",
   get_definition_error_hidden.2.2.2.2 "dbo" "V1"
     { envNoDefinition with definition_rows := .error "timeout" } [] "timeout" rfl rfl⟩

/-! ## Batch orchestrator (documenter.py, `DatabaseDocumenter.document_batch`)

`document_batch` is embedded as a function from a `BatchEnv` — the
outcome of object discovery (`_get_database_objects`), the success of each
`document()` call, and the wall-clock readings — to the sequence of
progress snapshots it writes (one entry per mutation of `self.progress`)
together with the final progress state.  The chunking loop
`for i in range(0, len(objects), batch_size)` enumerates the discovered
objects in order, so the embedding iterates the flat list (chunk
boundaries have no semantic effect).  The `cost`/`usage` fields are never
written by `document_batch` and are omitted. -/

/-- The values of `progress["phase"]` (the code stores the strings
"Not Started", "Initializing", "Processing", "Complete", "Failed"). -/
inductive Phase where
  | notStarted
  | initializing
  | processing
  | complete
  | failed
deriving DecidableEq

/-- Position of a phase along `NotStarted → Initializing → Processing →
{Complete | Failed}`; the two terminal phases share the last position. -/
def phaseRank : Phase → Nat
  | .notStarted => 0
  | .initializing => 1
  | .processing => 2
  | .complete => 3
  | .failed => 3

/-- The progress fields `document_batch` writes. -/
structure Progress where
  current : Nat
  total : Nat
  current_object : String
  phase : Phase
  start_time : Option Nat
  estimated_time_remaining : Option Nat
deriving DecidableEq

/-- `reset_progress` (documenter.py lines 45-60). -/
def initialProgress : Progress :=
  { current := 0, total := 0, current_object := "", phase := .notStarted,
    start_time := none, estimated_time_remaining := none }

/-- A discovered object: one `{"schema_name": ..., "name": ..., "type": ...}`
dict produced by `_get_database_objects`. -/
structure DbObject where
  schema_name : String
  name : String
  type : String
deriving DecidableEq

/-- `obj["type"] in documenters` for the dispatch dict
`{"table", "view", "procedure", "function"}`. -/
def supportedType (t : String) : Bool :=
  t == "table" || t == "view" || t == "procedure" || t == "function"

/-- External behaviour seen by one `document_batch` run: the discovery
outcome (an `.error` models `_get_database_objects` raising), whether the
k-th `document()` call succeeds, the clock value stored in `start_time`,
and the estimated-time-remaining value computed at the k-th call (the
source computes it from wall-clock floats:
`int((total - current) * (elapsed / current))`; the numeric value is
irrelevant to every claim, so it is supplied by the environment). -/
structure BatchEnv where
  discovery : Except String (List DbObject)
  docOk : Nat → Bool
  startTime : Nat
  eta : Nat → Nat

/-- The per-object loop of `document_batch` (documenter.py lines 99-129):
set `current_object`; skip unsupported types with a warning; call
`document()` — on failure the exception propagates and the enclosing
handler sets `phase = "Failed"`; on success increment `current` and, once
`current > 1`, store a new `estimated_time_remaining`.  Returns the
snapshots written, the state after the loop, and whether the loop ran to
completion. -/
def docLoop (env : BatchEnv) : List DbObject → Nat → Progress →
    List Progress × Progress × Bool
  | [], _, p => ([], p, true)
  | obj :: rest, k, p =>
    let p1 := { p with current_object := obj.schema_name ++ "." ++ obj.name }
    if supportedType obj.type then
      if env.docOk k then
        let p2 := { p1 with current := p1.current + 1 }
        if p2.current > 1 then
          let p3 := { p2 with estimated_time_remaining := some (env.eta k) }
          let r := docLoop env rest (k + 1) p3
          (p1 :: p2 :: p3 :: r.1, r.2)
        else
          let r := docLoop env rest (k + 1) p2
          (p1 :: p2 :: r.1, r.2)
      else
        ([p1, { p1 with phase := .failed }], { p1 with phase := .failed }, false)
    else
      let r := docLoop env rest k p1
      (p1 :: r.1, r.2)

/-- `DatabaseDocumenter.document_batch` (documenter.py lines 71-139):
reset progress, stamp `start_time`, enter Initializing, discover objects
(failure → Failed), set `total` and enter Processing, run the per-object
loop, and finish in Complete — or in Failed when discovery or a
`document()` call raises.  Returns the list of progress snapshots (one per
mutation, starting with the reset state) and the final state. -/
def document_batch (env : BatchEnv) : List Progress × Progress :=
  let p0 := initialProgress
  let p1 := { p0 with start_time := some env.startTime }
  let p2 := { p1 with phase := .initializing }
  match env.discovery with
  | .error _ =>
    let pf := { p2 with phase := .failed }
    ([p0, p1, p2, pf], pf)
  | .ok objs =>
    let p3 := { p2 with total := objs.length }
    let p4 := { p3 with phase := .processing }
    let r := docLoop env objs 0 p4
    if r.2.2 then
      let pc := { r.2.1 with phase := .complete }
      ([p0, p1, p2, p3, p4] ++ r.1 ++ [pc], pc)
    else
      ([p0, p1, p2, p3, p4] ++ r.1, r.2.1)

/-- One admissible step between consecutive progress snapshots: `current`
stays or increases by exactly 1, and the phase rank never moves backwards. -/
def progressStep (a b : Progress) : Prop :=
  (b.current = a.current ∨ b.current = a.current + 1) ∧
    phaseRank a.phase ≤ phaseRank b.phase

/-- Invariant of the per-object loop: starting from a Processing state
whose `current` leaves room for every remaining supported object, the loop
emits a chain of admissible steps, keeps `total` fixed, keeps
`current ≤ total`, stays in Processing or ends in Failed, and — when every
`document()` call succeeds — finishes the loop with `current` increased by
exactly the number of supported objects. -/
theorem docLoop_inv (env : BatchEnv) (objs : List DbObject) (k : Nat) (p : Progress)
    (hp : p.phase = .processing)
    (hb : p.current + (objs.filter (fun o => supportedType o.type)).length ≤ p.total) :
    List.Chain' progressStep (p :: (docLoop env objs k p).1) ∧
    (∀ q ∈ (docLoop env objs k p).1, q.total = p.total ∧ q.current ≤ q.total ∧
      (q.phase = .processing ∨ q.phase = .failed)) ∧
    (p :: (docLoop env objs k p).1).getLast? = some (docLoop env objs k p).2.1 ∧
    ((docLoop env objs k p).2.2 = true → (docLoop env objs k p).2.1.phase = .processing) ∧
    ((docLoop env objs k p).2.2 = false → (docLoop env objs k p).2.1.phase = .failed) ∧
    ((∀ j, env.docOk j = true) → (docLoop env objs k p).2.2 = true ∧
      (docLoop env objs k p).2.1.current =
        p.current + (objs.filter (fun o => supportedType o.type)).length) := by
  induction objs generalizing k p with
  | nil =>
    refine ⟨by simp [docLoop], by simp [docLoop], by simp [docLoop], fun _ => by simp [docLoop, hp],
      fun h => by simp [docLoop] at h, fun _ => by simp [docLoop]⟩
  | cons obj rest ih =>
    by_cases hsup : supportedType obj.type = true
    · have hfil : (List.filter (fun o => supportedType o.type) (obj :: rest)).length =
          (List.filter (fun o => supportedType o.type) rest).length + 1 := by
        simp [List.filter_cons, hsup]
      cases hok : env.docOk k with
      | false =>
        have hres : docLoop env (obj :: rest) k p =
            ([{ p with current_object := obj.schema_name ++ "." ++ obj.name },
              { p with
                current_object := obj.schema_name ++ "." ++ obj.name
                phase := .failed }],
             { p with
               current_object := obj.schema_name ++ "." ++ obj.name
               phase := .failed },
             false) := by
          simp [docLoop, hsup, hok]
        rw [hres]
        refine ⟨?_, ?_, by simp, fun h => by simp at h, fun _ => rfl, fun hall => ?_⟩
        · refine List.chain'_cons.mpr ⟨⟨Or.inl rfl, le_refl _⟩, ?_⟩
          refine List.chain'_cons.mpr ⟨⟨Or.inl rfl, ?_⟩, List.chain'_singleton _⟩
          simp [hp, phaseRank]
        · intro q hq
          simp only [List.mem_cons, List.not_mem_nil, or_false] at hq
          rcases hq with rfl | rfl
          · exact ⟨rfl, by simp; omega, Or.inl (by simp [hp])⟩
          · exact ⟨rfl, by simp; omega, Or.inr rfl⟩
        · exact absurd (hall k) (by simp [hok])
      | true =>
        by_cases hgt : p.current + 1 > 1
        · have hres : docLoop env (obj :: rest) k p =
              ({ p with current_object := obj.schema_name ++ "." ++ obj.name } ::
               { p with
                 current_object := obj.schema_name ++ "." ++ obj.name,
                 current := p.current + 1 } ::
               { p with
                 current_object := obj.schema_name ++ "." ++ obj.name,
                 current := p.current + 1,
                 estimated_time_remaining := some (env.eta k) } ::
               (docLoop env rest (k + 1)
                 { p with
                   current_object := obj.schema_name ++ "." ++ obj.name,
                   current := p.current + 1,
                   estimated_time_remaining := some (env.eta k) }).1,
               (docLoop env rest (k + 1)
                 { p with
                   current_object := obj.schema_name ++ "." ++ obj.name,
                   current := p.current + 1,
                   estimated_time_remaining := some (env.eta k) }).2) := by
            simp [docLoop, hsup, hok, hgt]
          have hrec := ih (k + 1)
            { p with
              current_object := obj.schema_name ++ "." ++ obj.name,
              current := p.current + 1,
              estimated_time_remaining := some (env.eta k) }
            (by simp [hp]) (by simp; omega)
          rw [hres]
          obtain ⟨hch, hmem, hlast, hokp, hfailp, hallp⟩ := hrec
          refine ⟨?_, ?_, ?_, hokp, hfailp, fun hall => ?_⟩
          · refine List.chain'_cons.mpr ⟨⟨Or.inl rfl, le_refl _⟩, ?_⟩
            refine List.chain'_cons.mpr ⟨⟨Or.inr rfl, le_refl _⟩, ?_⟩
            exact List.chain'_cons.mpr ⟨⟨Or.inl rfl, le_refl _⟩, hch⟩
          · intro q hq
            simp only [List.mem_cons] at hq
            rcases hq with rfl | rfl | rfl | hq
            · exact ⟨rfl, by simp; omega, Or.inl (by simp [hp])⟩
            · exact ⟨rfl, by simp; omega, Or.inl (by simp [hp])⟩
            · exact ⟨rfl, by simp; omega, Or.inl (by simp [hp])⟩
            · have := hmem q hq
              exact ⟨by rw [this.1], this.2.1, this.2.2⟩
          · rw [List.getLast?_cons_cons, List.getLast?_cons_cons, List.getLast?_cons_cons]
            exact hlast
          · refine ⟨(hallp hall).1, ?_⟩
            rw [(hallp hall).2]
            simp only [hfil]
            omega
        · have hres : docLoop env (obj :: rest) k p =
              ({ p with current_object := obj.schema_name ++ "." ++ obj.name } ::
               { p with
                 current_object := obj.schema_name ++ "." ++ obj.name,
                 current := p.current + 1 } ::
               (docLoop env rest (k + 1)
                 { p with
                   current_object := obj.schema_name ++ "." ++ obj.name,
                   current := p.current + 1 }).1,
               (docLoop env rest (k + 1)
                 { p with
                   current_object := obj.schema_name ++ "." ++ obj.name,
                   current := p.current + 1 }).2) := by
            simp [docLoop, hsup, hok, hgt]
          have hrec := ih (k + 1)
            { p with
              current_object := obj.schema_name ++ "." ++ obj.name,
              current := p.current + 1 }
            (by simp [hp]) (by simp; omega)
          rw [hres]
          obtain ⟨hch, hmem, hlast, hokp, hfailp, hallp⟩ := hrec
          refine ⟨?_, ?_, ?_, hokp, hfailp, fun hall => ?_⟩
          · refine List.chain'_cons.mpr ⟨⟨Or.inl rfl, le_refl _⟩, ?_⟩
            exact List.chain'_cons.mpr ⟨⟨Or.inr rfl, le_refl _⟩, hch⟩
          · intro q hq
            simp only [List.mem_cons] at hq
            rcases hq with rfl | rfl | hq
            · exact ⟨rfl, by simp; omega, Or.inl (by simp [hp])⟩
            · exact ⟨rfl, by simp; omega, Or.inl (by simp [hp])⟩
            · have := hmem q hq
              exact ⟨by rw [this.1], this.2.1, this.2.2⟩
          · rw [List.getLast?_cons_cons, List.getLast?_cons_cons]
            exact hlast
          · refine ⟨(hallp hall).1, ?_⟩
            rw [(hallp hall).2]
            simp only [hfil]
            omega
    · have hsup' : supportedType obj.type = false := by
        cases h : supportedType obj.type
        · rfl
        · exact absurd h hsup
      have hfil : List.filter (fun o => supportedType o.type) (obj :: rest) =
          List.filter (fun o => supportedType o.type) rest := by
        simp [List.filter_cons, hsup']
      have hres : docLoop env (obj :: rest) k p =
          ({ p with current_object := obj.schema_name ++ "." ++ obj.name } ::
           (docLoop env rest k
             { p with current_object := obj.schema_name ++ "." ++ obj.name }).1,
           (docLoop env rest k
             { p with current_object := obj.schema_name ++ "." ++ obj.name }).2) := by
        simp [docLoop, hsup']
      have hrec := ih k { p with current_object := obj.schema_name ++ "." ++ obj.name }
        (by simp [hp]) (by rw [hfil] at hb; simpa using hb)
      rw [hres]
      obtain ⟨hch, hmem, hlast, hokp, hfailp, hallp⟩ := hrec
      refine ⟨?_, ?_, ?_, hokp, hfailp, fun hall => ?_⟩
      · exact List.chain'_cons.mpr ⟨⟨Or.inl rfl, le_refl _⟩, hch⟩
      · intro q hq
        simp only [List.mem_cons] at hq
        rcases hq with rfl | hq
        · refine ⟨rfl, ?_, Or.inl (by simp [hp])⟩
          rw [hfil] at hb
          simp
          omega
        · have := hmem q hq
          exact ⟨by rw [this.1], this.2.1, this.2.2⟩
      · rw [List.getLast?_cons_cons]
        exact hlast
      · refine ⟨(hallp hall).1, ?_⟩
        rw [(hallp hall).2, hfil]

/-- C1: over every `document_batch` run, (i) the first snapshot is the
reset `NotStarted` state (a new call resets before re-entering
Initializing); (ii) consecutive snapshots form a chain in which `current`
never decreases and grows by at most 1 per step, and the phase rank along
`NotStarted → Initializing → Processing → {Complete|Failed}` never moves
backwards; (iii) `0 ≤ current ≤ total` holds at every snapshot (`current`
is a `Nat`, so the lower bound is intrinsic); (iv) when discovery returned
`N` objects, every snapshot at or beyond Processing has `total = N`; and
(v) when every `document()` call succeeds, the final state is `Complete`
with `current` equal to the number of supported discovered objects —
`current` was incremented exactly once per successfully documented
object. -/
theorem batch_progress_invariants (env : BatchEnv) :
    (document_batch env).1.head? = some initialProgress ∧
    List.Chain' progressStep (document_batch env).1 ∧
    (∀ q ∈ (document_batch env).1, q.current ≤ q.total) ∧
    (∀ objs, env.discovery = .ok objs →
      ∀ q ∈ (document_batch env).1,
        phaseRank .processing ≤ phaseRank q.phase → q.total = objs.length) ∧
    (∀ objs, env.discovery = .ok objs → (∀ j, env.docOk j = true) →
      (document_batch env).2.phase = .complete ∧
      (document_batch env).2.current =
        (objs.filter (fun o => supportedType o.type)).length) := by
  cases hd : env.discovery with
  | error e =>
    have hres : document_batch env =
        ([initialProgress,
          { initialProgress with start_time := some env.startTime },
          { initialProgress with start_time := some env.startTime, phase := .initializing },
          { initialProgress with start_time := some env.startTime, phase := .failed }],
         { initialProgress with start_time := some env.startTime, phase := .failed }) := by
      simp [document_batch, hd]
    rw [hres]
    refine ⟨rfl, ?_, ?_, fun objs h => ?_, fun objs h => ?_⟩
    · refine List.chain'_cons.mpr ⟨⟨Or.inl rfl, le_refl _⟩, ?_⟩
      refine List.chain'_cons.mpr ⟨⟨Or.inl rfl, by simp [phaseRank, initialProgress]⟩, ?_⟩
      refine List.chain'_cons.mpr ⟨⟨Or.inl rfl, by simp [phaseRank]⟩, List.chain'_singleton _⟩
    · intro q hq
      simp only [List.mem_cons, List.not_mem_nil, or_false] at hq
      rcases hq with rfl | rfl | rfl | rfl <;> simp [initialProgress]
    · exact absurd h (by simp)
    · exact absurd h (by simp)
  | ok objs =>
    have hb : (0 : Nat) + (objs.filter (fun o => supportedType o.type)).length ≤
        objs.length := by
      simpa using List.length_filter_le (fun o => supportedType o.type) objs
    have hinv := docLoop_inv env objs 0
      ⟨0, objs.length, "", .processing, some env.startTime, none⟩ rfl hb
    obtain ⟨hch, hmem, hlast, hokp, hfailp, hallp⟩ := hinv
    have hpf : (docLoop env objs 0
          ⟨0, objs.length, "", .processing, some env.startTime, none⟩).2.1.total = objs.length ∧
        (docLoop env objs 0
          ⟨0, objs.length, "", .processing, some env.startTime, none⟩).2.1.current ≤
          (docLoop env objs 0
            ⟨0, objs.length, "", .processing, some env.startTime, none⟩).2.1.total := by
      have hm := List.mem_of_mem_getLast? (by rw [hlast]; rfl :
        (docLoop env objs 0 ⟨0, objs.length, "", .processing, some env.startTime, none⟩).2.1 ∈
          (⟨0, objs.length, "", .processing, some env.startTime, none⟩ ::
            (docLoop env objs 0
              ⟨0, objs.length, "", .processing, some env.startTime, none⟩).1).getLast?)
      rcases List.mem_cons.mp hm with heq | hm
      · rw [heq]
        exact ⟨rfl, Nat.zero_le _⟩
      · have := hmem _ hm
        exact ⟨this.1, this.2.1⟩
    cases hok2 : (docLoop env objs 0
        ⟨0, objs.length, "", .processing, some env.startTime, none⟩).2.2 with
    | true =>
      have hres : document_batch env =
          ([initialProgress,
            { initialProgress with start_time := some env.startTime },
            { initialProgress with start_time := some env.startTime, phase := .initializing },
            ({ initialProgress with
               start_time := some env.startTime, phase := .initializing,
               total := objs.length } : Progress)] ++
           ((⟨0, objs.length, "", .processing, some env.startTime, none⟩ :
              Progress) ::
            (docLoop env objs 0
              ⟨0, objs.length, "", .processing, some env.startTime, none⟩).1 ++
            [{ (docLoop env objs 0
                ⟨0, objs.length, "", .processing, some env.startTime, none⟩).2.1 with
               phase := .complete }]),
           { (docLoop env objs 0
              ⟨0, objs.length, "", .processing, some env.startTime, none⟩).2.1 with
             phase := .complete }) := by
        simp [document_batch, hd, hok2, initialProgress]
      rw [hres]
      refine ⟨rfl, ?_, ?_, fun objs' h => ?_, fun objs' h hall => ?_⟩
      · refine List.chain'_append.mpr ⟨?_, ?_, ?_⟩
        · refine List.chain'_cons.mpr ⟨⟨Or.inl rfl, le_refl _⟩, ?_⟩
          refine List.chain'_cons.mpr ⟨⟨Or.inl rfl, by simp [phaseRank, initialProgress]⟩, ?_⟩
          refine List.chain'_cons.mpr ⟨⟨Or.inl rfl, by simp [phaseRank]⟩,
            List.chain'_singleton _⟩
        · show List.Chain' progressStep
            (((⟨0, objs.length, "", .processing, some env.startTime, none⟩ : Progress) ::
              (docLoop env objs 0
                ⟨0, objs.length, "", .processing, some env.startTime, none⟩).1) ++
             [{ (docLoop env objs 0
                  ⟨0, objs.length, "", .processing, some env.startTime, none⟩).2.1 with
                phase := .complete }])
          refine List.chain'_append.mpr ⟨hch, List.chain'_singleton _, ?_⟩
          intro x hx y hy
          rw [hlast] at hx
          simp only [Option.mem_def, Option.some_inj] at hx
          simp only [List.head?_cons, Option.mem_def, Option.some_inj] at hy
          subst hx
          subst hy
          exact ⟨Or.inl rfl, by simp [hokp hok2, phaseRank]⟩
        · intro x hx y hy
          simp only [List.getLast?_cons_cons, List.getLast?_singleton,
            Option.mem_def, Option.some_inj] at hx
          simp only [List.cons_append, List.head?_cons, Option.mem_def,
            Option.some_inj] at hy
          subst hx
          subst hy
          exact ⟨Or.inl rfl, by simp [phaseRank]⟩
      · intro q hq
        simp only [List.mem_append, List.mem_cons, List.not_mem_nil, or_false] at hq
        rcases hq with (rfl | rfl | rfl | rfl) | (rfl | hq) | rfl
        · simp [initialProgress]
        · simp [initialProgress]
        · simp [initialProgress]
        · simp [initialProgress]
        · simp
        · exact (hmem q hq).2.1
        · simpa using hpf.2
      · intro q hq hrank
        injection h with h'
        subst h'
        simp only [List.mem_append, List.mem_cons, List.not_mem_nil, or_false] at hq
        rcases hq with (rfl | rfl | rfl | rfl) | (rfl | hq) | rfl
        · simp [initialProgress, phaseRank] at hrank
        · simp [initialProgress, phaseRank] at hrank
        · simp [initialProgress, phaseRank] at hrank
        · simp [initialProgress, phaseRank] at hrank
        · simp
        · rw [(hmem q hq).1]
        · simpa using hpf.1
      · injection h with h'
        subst h'
        refine ⟨rfl, ?_⟩
        have := (hallp hall).2
        simpa using this
    | false =>
      have hres : document_batch env =
          ([initialProgress,
            { initialProgress with start_time := some env.startTime },
            { initialProgress with start_time := some env.startTime, phase := .initializing },
            ({ initialProgress with
               start_time := some env.startTime, phase := .initializing,
               total := objs.length } : Progress)] ++
           ((⟨0, objs.length, "", .processing, some env.startTime, none⟩ :
              Progress) ::
            (docLoop env objs 0
              ⟨0, objs.length, "", .processing, some env.startTime, none⟩).1),
           (docLoop env objs 0
             ⟨0, objs.length, "", .processing, some env.startTime, none⟩).2.1) := by
        simp [document_batch, hd, hok2, initialProgress]
      rw [hres]
      refine ⟨rfl, ?_, ?_, fun objs' h => ?_, fun objs' h hall => ?_⟩
      · refine List.chain'_append.mpr ⟨?_, hch, ?_⟩
        · refine List.chain'_cons.mpr ⟨⟨Or.inl rfl, le_refl _⟩, ?_⟩
          refine List.chain'_cons.mpr ⟨⟨Or.inl rfl, by simp [phaseRank, initialProgress]⟩, ?_⟩
          refine List.chain'_cons.mpr ⟨⟨Or.inl rfl, by simp [phaseRank]⟩,
            List.chain'_singleton _⟩
        · intro x hx y hy
          simp only [List.getLast?_cons_cons, List.getLast?_singleton,
            Option.mem_def, Option.some_inj] at hx
          simp only [List.head?_cons, Option.mem_def, Option.some_inj] at hy
          subst hx
          subst hy
          exact ⟨Or.inl rfl, by simp [phaseRank]⟩
      · intro q hq
        simp only [List.mem_append, List.mem_cons, List.not_mem_nil, or_false] at hq
        rcases hq with (rfl | rfl | rfl | rfl) | rfl | hq
        · simp [initialProgress]
        · simp [initialProgress]
        · simp [initialProgress]
        · simp [initialProgress]
        · simp
        · exact (hmem q hq).2.1
      · intro q hq hrank
        injection h with h'
        subst h'
        simp only [List.mem_append, List.mem_cons, List.not_mem_nil, or_false] at hq
        rcases hq with (rfl | rfl | rfl | rfl) | rfl | hq
        · simp [initialProgress, phaseRank] at hrank
        · simp [initialProgress, phaseRank] at hrank
        · simp [initialProgress, phaseRank] at hrank
        · simp [initialProgress, phaseRank] at hrank
        · simp
        · rw [(hmem q hq).1]
      · exact absurd (hallp hall).1 (by simp [hok2])

/-- Environment for the C1 witness: two discovered objects, every
`document()` call succeeds. -/
def envBatchDemo : BatchEnv :=
  { discovery := .ok [⟨"dbo", "Orders", "table"⟩, ⟨"dbo", "V1", "view"⟩]
    docOk := fun _ => true
    startTime := 0
    eta := fun _ => 0 }

/-- C1 witness: the invariants applied to a concrete two-object run. -/
theorem batch_progress_invariants_witness :
    (document_batch envBatchDemo).1.head? = some initialProgress ∧
    (document_batch envBatchDemo).2.phase = .complete ∧
    (document_batch envBatchDemo).2.current =
      (([⟨"dbo", "Orders", "table"⟩, ⟨"dbo", "V1", "view"⟩] : List DbObject).filter
        (fun o => supportedType o.type)).length :=
  ⟨(batch_progress_invariants envBatchDemo).1,
   ((batch_progress_invariants envBatchDemo).2.2.2.2 _ rfl (fun _ => rfl)).1,
   ((batch_progress_invariants envBatchDemo).2.2.2.2 _ rfl (fun _ => rfl)).2⟩

/-! ## Vector store (vector_store.py, `VectorStore`)

The ChromaDB client is modelled as an association list from collection
name to stored records, with the standard contract of the operations the
source calls: `get_or_create_collection`, `create_collection` (fails if
present), `delete_collection` (fails if absent), `collection.count`,
`collection.upsert` (replace by id), `collection.query`, and `reset`.
Per ChromaDB's documented contract, `Client.reset()` resets the database,
deleting **all** collections and entries.  Each client call consumes one
tick of a fault `Oracle`: `none` means the call behaves normally, `some
msg` means the client raises with message `msg` (covering I/O errors and
configurations where reset is disallowed). -/

/-- The four partitions, in the insertion order of the `self.collections`
dict. -/
inductive ObjType where
  | table
  | view
  | procedure
  | function
deriving DecidableEq

/-- The collection name used for a partition (`"tables"`, `"views"`,
`"procedures"`, `"functions"` — `__init__` writes them literally, the
recovery path in `clear` rebuilds them as `obj_type + "s"`). -/
def ObjType.plural : ObjType → String
  | .table => "tables"
  | .view => "views"
  | .procedure => "procedures"
  | .function => "functions"

/-- The partition's type tag as stored in record metadata. -/
def ObjType.tag : ObjType → String
  | .table => "table"
  | .view => "view"
  | .procedure => "procedure"
  | .function => "function"

/-- Iteration order of `self.collections.items()` (Python dicts preserve
insertion order). -/
def allObjTypes : List ObjType := [.table, .view, .procedure, .function]

/-- A record held by a collection. -/
structure StoreRec where
  id : String
  content : String
  metadata : List (String × PyVal)
deriving DecidableEq

/-- The ChromaDB database: collection name → records. -/
abbrev ClientState := List (String × List StoreRec)

/-- Fault oracle for client calls: tick → `none` (call succeeds) or
`some msg` (call raises `msg`). -/
abbrev Oracle := Nat → Option String

/-- Does a collection with this name exist? -/
def hasCol (c : ClientState) (name : String) : Bool :=
  c.any (fun p => p.1 == name)

/-- The records of a collection (empty when absent). -/
def getRecs (c : ClientState) (name : String) : List StoreRec :=
  match c.find? (fun p => p.1 == name) with
  | some p => p.2
  | none => []

/-- `collection.count()` — fails (None) when the collection is gone. -/
def colCount (c : ClientState) (name : String) : Option Nat :=
  match c.find? (fun p => p.1 == name) with
  | some p => some p.2.length
  | none => none

/-- Remove a collection. -/
def removeCol (c : ClientState) (name : String) : ClientState :=
  c.filter (fun p => p.1 != name)

/-- Add a fresh empty collection. -/
def addCol (c : ClientState) (name : String) : ClientState :=
  c ++ [(name, [])]

/-- Replace a collection's records. -/
def setRecs (c : ClientState) (name : String) (rs : List StoreRec) : ClientState :=
  c.map (fun p => if p.1 == name then (p.1, rs) else p)

/-- `client.delete_collection(name)`. -/
def clientDelete (o : Oracle) (t : Nat) (c : ClientState) (name : String) :
    Except String ClientState × Nat :=
  match o t with
  | some m => (.error m, t + 1)
  | none =>
    if hasCol c name then (.ok (removeCol c name), t + 1)
    else (.error ("Collection " ++ name ++ " does not exist."), t + 1)

/-- `client.create_collection(name)` — fails when the name exists. -/
def clientCreate (o : Oracle) (t : Nat) (c : ClientState) (name : String) :
    Except String ClientState × Nat :=
  match o t with
  | some m => (.error m, t + 1)
  | none =>
    if hasCol c name then (.error ("Collection " ++ name ++ " already exists."), t + 1)
    else (.ok (addCol c name), t + 1)

/-- `client.get_or_create_collection(name)`. -/
def clientGetOrCreate (o : Oracle) (t : Nat) (c : ClientState) (name : String) :
    Except String ClientState × Nat :=
  match o t with
  | some m => (.error m, t + 1)
  | none => (.ok (if hasCol c name then c else addCol c name), t + 1)

/-- `client.reset()`: per ChromaDB's contract, resets the database and
deletes all collections and entries (an oracle fault models both I/O
errors and `reset` being disallowed by the client settings). -/
def clientReset (o : Oracle) (t : Nat) :
    Except String ClientState × Nat :=
  match o t with
  | some m => (.error m, t + 1)
  | none => (.ok [], t + 1)

/-- `collection.upsert(ids=[id], documents=[content], metadatas=[...])`:
replaces any record with the same id. -/
def clientUpsert (o : Oracle) (t : Nat) (c : ClientState) (name : String) (r : StoreRec) :
    Except String ClientState × Nat :=
  match o t with
  | some m => (.error m, t + 1)
  | none =>
    if hasCol c name then
      (.ok (setRecs c name ((getRecs c name).filter (fun x => x.id != r.id) ++ [r])), t + 1)
    else (.error ("Collection " ++ name ++ " does not exist."), t + 1)

/-- The `VectorStore` instance state: the client database plus the
`self.collections` handle dict (handle = collection name per partition). -/
structure VSState where
  client : ClientState
  handles : ObjType → String

/-- `VectorStore.__init__` after the four `get_or_create_collection`
calls on a fresh database. -/
def VectorStore.init : VSState :=
  { client := [("tables", []), ("views", []), ("procedures", []), ("functions", [])]
    handles := ObjType.plural }

/-- The loop of `clear_collections` (vector_store.py lines 157-163):
delete then recreate each collection, keeping its name as the handle;
the first raising call aborts the loop. -/
def clearCollectionsLoop (o : Oracle) : List ObjType → Nat → VSState →
    Except String Unit × VSState × Nat
  | [], t, st => (.ok (), st, t)
  | ot :: rest, t, st =>
    match clientDelete o t st.client (st.handles ot) with
    | (.error m, t1) => (.error m, st, t1)
    | (.ok c1, t1) =>
      match clientCreate o t1 c1 (st.handles ot) with
      | (.error m, t2) => (.error m, { st with client := c1 }, t2)
      | (.ok c2, t2) => clearCollectionsLoop o rest t2 { st with client := c2 }

/-- The recovery loop in `clear`'s exception handler (vector_store.py
lines 141-145): `get_or_create_collection(obj_type + "s")` for each
partition, updating the handle. -/
def recoveryLoop (o : Oracle) : List ObjType → Nat → VSState →
    Except String Unit × VSState × Nat
  | [], t, st => (.ok (), st, t)
  | ot :: rest, t, st =>
    match clientGetOrCreate o t st.client ot.plural with
    | (.error m, t1) => (.error m, st, t1)
    | (.ok c, t1) =>
      recoveryLoop o rest t1
        { client := c, handles := fun x => if x = ot then ot.plural else st.handles x }

/-- The exception handler of `clear` (vector_store.py lines 133-151):
attempt the recovery loop; if it succeeds re-raise `error_msg`, if it
fails raise the combined message. -/
def clearRecover (o : Oracle) (errorMsg : String) (st : VSState) (t : Nat) :
    Except String Unit × VSState × Nat :=
  match recoveryLoop o allObjTypes t st with
  | (.ok _, st2, t2) => (.error errorMsg, st2, t2)
  | (.error m2, st2, t2) =>
    (.error (errorMsg ++ ". Additionally, cleanup failed: " ++ m2), st2, t2)

/-- `VectorStore.clear` (vector_store.py lines 113-151): clear all
collections, then `self.client.reset()`; on any failure (with
`cleanup_required` still true) run the recovery handler. -/
def VectorStore.clear (o : Oracle) (st : VSState) (t : Nat) :
    Except String Unit × VSState × Nat :=
  match clearCollectionsLoop o allObjTypes t st with
  | (.ok _, st1, t1) =>
    match clientReset o t1 with
    | (.ok c, t2) => (.ok (), { st1 with client := c }, t2)
    | (.error m, t2) => clearRecover o ("Failed to clear vector store: " ++ m) st1 t2
  | (.error m, st1, t1) => clearRecover o ("Failed to clear vector store: " ++ m) st1 t1

/-- `VectorStore.add_documentation` (vector_store.py lines 62-80). -/
def add_documentation (o : Oracle) (st : VSState) (t : Nat) (schema nm : String)
    (ot : ObjType) (content : String) (metadata : List (String × PyVal)) :
    Except String Unit × VSState × Nat :=
  match clientUpsert o t st.client (st.handles ot)
      ⟨schema ++ "." ++ nm, content,
        [("schema", .pstr schema), ("name", .pstr nm), ("type", .pstr ot.tag)] ++ metadata⟩ with
  | (.ok c, t1) => (.ok (), { st with client := c }, t1)
  | (.error m, t1) => (.error m, st, t1)

/-- The result of `VectorStore.get_stats`. -/
structure Stats where
  table : Nat
  view : Nat
  procedure : Nat
  function : Nat
deriving DecidableEq

/-- `VectorStore.get_stats` (vector_store.py lines 44-60): the four
`count()` calls; any failure is caught and the all-zero dict returned. -/
def get_stats (st : VSState) : Stats :=
  match colCount st.client (st.handles .table), colCount st.client (st.handles .view),
      colCount st.client (st.handles .procedure), colCount st.client (st.handles .function) with
  | some a, some b, some c, some d => ⟨a, b, c, d⟩
  | _, _, _, _ => ⟨0, 0, 0, 0⟩

/-- One formatted search result (`{id, content, metadata, distance}`);
`distance` is modelled as a rational. -/
structure Hit where
  id : String
  content : String
  metadata : List (String × PyVal)
  distance : ℚ
deriving DecidableEq

/-- The embedding engine: for a collection name and query text, the ranked
candidates `collection.query` would return (before the `n_results` cap). -/
structure SearchEnv where
  queryHits : String → String → List Hit

/-- The collection loop of `VectorStore.search` (vector_store.py lines
88-102): for each partition in dict order, `count()` (raising if the
collection is gone), skip when empty, otherwise take up to `n` results. -/
def collectHitsLoop (st : VSState) (env : SearchEnv) (query : String) (n : Nat) :
    List ObjType → Except String (List Hit)
  | [] => .ok []
  | ot :: rest =>
    match colCount st.client (st.handles ot) with
    | none => .error ("Collection " ++ st.handles ot ++ " does not exist.")
    | some cnt =>
      match collectHitsLoop st env query n rest with
      | .error m => .error m
      | .ok acc =>
        .ok ((if cnt > 0 then (env.queryHits (st.handles ot) query).take n else []) ++ acc)

/-- All candidates collected by one `search` call. -/
def collectHits (st : VSState) (env : SearchEnv) (query : String) (n : Nat) :
    Except String (List Hit) :=
  collectHitsLoop st env query n allObjTypes

/-- `results.sort(key=lambda x: x["distance"])` ordering. -/
def hitLE (a b : Hit) : Prop := a.distance ≤ b.distance

instance : DecidableRel hitLE := fun a b => inferInstanceAs (Decidable (a.distance ≤ b.distance))

instance : IsTotal Hit hitLE := ⟨fun a b => le_total a.distance b.distance⟩

instance : IsTrans Hit hitLE := ⟨fun _ _ _ => le_trans⟩

/-- `VectorStore.search` (vector_store.py lines 82-111): collect, sort by
distance ascending, truncate to `n_results`. -/
def VectorStore.search (st : VSState) (env : SearchEnv) (query : String) (n_results : Nat) :
    Except String (List Hit) :=
  match collectHits st env query n_results with
  | .error m => .error m
  | .ok results => .ok ((results.insertionSort hitLE).take n_results)

/-! ## Substring search (Python `str.find`) -/

/-- `needle.isPrefixOf hay` on code points, written out so the marker
tests below are about this executable function. -/
def leadsWith : List Char → List Char → Bool
  | [], _ => true
  | _ :: _, [] => false
  | a :: as, b :: bs => a == b && leadsWith as bs

/-- Index of the first occurrence of `needle` in `hay` (Python
`hay.find(needle)`, with `none` for `-1`). -/
def firstOccur : List Char → List Char → Option Nat
  | [], needle => if leadsWith needle [] then some 0 else none
  | a :: t, needle =>
    if leadsWith needle (a :: t) then some 0 else (firstOccur t needle).map (· + 1)

/-- Python `s.find(sub)` as an `Option` (indices are code points). -/
def pyFind (s sub : String) : Option Nat :=
  firstOccur s.data sub.data

/-- Python `s[:n]` on code points. -/
def strTake (s : String) (n : Nat) : String :=
  ⟨s.data.take n⟩

/-- `DatabaseDocumenter.get_documentation_summary` (documenter.py lines
214-230): search for the single best match, truncate the stored content at
the first occurrence of the literal `"\n\nAnalysis:"` (note: no trailing
newline in the source), return a fixed not-found message when the search
returns nothing, and degrade to an error message when `search` raises. -/
def get_documentation_summary (st : VSState) (env : SearchEnv)
    (schema nm obj_type : String) : String :=
  match VectorStore.search st env (schema ++ "." ++ nm ++ " " ++ obj_type) 1 with
  | .error e => "Error generating summary: " ++ e
  | .ok [] => "No documentation found for " ++ obj_type ++ " " ++ schema ++ "." ++ nm
  | .ok (r :: _) =>
    match pyFind r.content "\n\nAnalysis:" with
    | some i => strTake r.content i
    | none => r.content

/-! ## Intent classification (llm_client.py, `analyze_search_intent`) -/

/-- The fixed shape of a search intent (the default path; a successful
`json.loads` may return any JSON value, represented by the type parameter
`J` of `analyze_search_intent`). -/
structure SearchIntent where
  object_type : String
  detail_level : String
  include_fields : List String
  format_template : String
  search_query : String
deriving DecidableEq

/-- The default intent returned on any failure (llm_client.py lines
207-225). -/
def defaultIntent (query : String) : SearchIntent :=
  { object_type := "any"
    detail_level := "basic_info"
    include_fields := ["schema", "name", "type"]
    format_template := "{schema}.{name} ({type})"
    search_query := query }

/-- Index of the first occurrence of a character (`response.find("{")`). -/
def firstIdxOf : List Char → Char → Option Nat
  | [], _ => none
  | a :: t, c => if a == c then some 0 else (firstIdxOf t c).map (· + 1)

/-- Index of the last occurrence of a character (`response.rfind("}")`). -/
def lastIdxOf : List Char → Char → Option Nat
  | [], _ => none
  | a :: t, c =>
    match lastIdxOf t c with
    | some j => some (j + 1)
    | none => if a == c then some 0 else none

/-- `start = response.find("{"); end = response.rfind("}") + 1;
if start >= 0 and end > start: json_str = response[start:end]`. -/
def extractSpan (response : String) : Option String :=
  match firstIdxOf response.data '{', lastIdxOf response.data '}' with
  | some i, some j => if i ≤ j then some ⟨(response.data.drop i).take (j + 1 - i)⟩ else none
  | _, _ => none

/-- `LLMClient.analyze_search_intent` (llm_client.py lines 155-225):
prompt the provider (outcome `providerResult`; the surrounding
`try/except` turns any provider exception into the default intent),
extract the first-`{`-to-last-`}` span, `json.loads` it (`parseJson`,
yielding an arbitrary JSON value of type `J`), and fall back to the fixed
default intent when there is no span, parsing fails, or the provider
errored.  Total by construction — the Python function never raises. -/
def analyze_search_intent {J : Type} (parseJson : String → Option J)
    (providerResult : Except String String) (query : String) : J ⊕ SearchIntent :=
  match providerResult with
  | .error _ => .inr (defaultIntent query)
  | .ok response =>
    match extractSpan response with
    | some json_str =>
      match parseJson json_str with
      | some intent => .inl intent
      | none => .inr (defaultIntent query)
    | none => .inr (defaultIntent query)

/-- C4, code-bug evaluation.  On a freshly initialized store with every
ChromaDB call succeeding, `clear()` returns success — but because
`self.client.reset()` runs *after* `clear_collections` recreated the four
collections and (per ChromaDB's contract) deletes every collection, the
resulting state has no partitions at all: `get_stats` returns all zeros
only through its exception fallback, and a subsequent upsert into the
table partition raises instead of succeeding as the claim requires. -/
theorem clear_reset_wipes_partitions :
    (VectorStore.clear (fun _ => none) VectorStore.init 0).1 = .ok () ∧
    (VectorStore.clear (fun _ => none) VectorStore.init 0).2.1.client = [] ∧
    get_stats (VectorStore.clear (fun _ => none) VectorStore.init 0).2.1 = ⟨0, 0, 0, 0⟩ ∧
    (add_documentation (fun _ => none)
        (VectorStore.clear (fun _ => none) VectorStore.init 0).2.1 0
        "dbo" "Customers" .table "doc" []).1 =
      .error "Collection tables does not exist." :=
  ⟨rfl, rfl, rfl, rfl⟩

/-- C9: `analyze_search_intent` returns exactly the fixed default intent —
`{object_type: "any", detail_level: "basic_info", include_fields:
["schema","name","type"], format_template: "{schema}.{name} ({type})",
search_query: the original query}` — whenever the provider call errors,
the reply holds no extractable `{...}` span, or the extracted span fails
to parse; it never raises (it is total by construction, mirroring the
source's all-catching `try/except`). -/
theorem classify_intent_fallback {J : Type} (parseJson : String → Option J) (query : String) :
    (∀ e, analyze_search_intent parseJson (.error e) query = .inr (defaultIntent query)) ∧
    (∀ response, extractSpan response = none →
      analyze_search_intent parseJson (.ok response) query = .inr (defaultIntent query)) ∧
    (∀ response s, extractSpan response = some s → parseJson s = none →
      analyze_search_intent parseJson (.ok response) query = .inr (defaultIntent query)) ∧
    defaultIntent query = ⟨"any", "basic_info", ["schema", "name", "type"],
      "{schema}.{name} ({type})", query⟩ := by
  refine ⟨fun e => rfl, fun response h => ?_, fun response s h1 h2 => ?_, rfl⟩
  · simp [analyze_search_intent, h]
  · simp [analyze_search_intent, h1, h2]

/-- C9 witness: a brace-free reply and an unparsable span both yield the
default intent at concrete inputs. -/
theorem classify_intent_fallback_witness :
    analyze_search_intent (fun _ => (none : Option Unit)) (.error "rate limited")
      "list tables" = .inr (defaultIntent "list tables") ∧
    analyze_search_intent (fun _ => (none : Option Unit)) (.ok "no json here")
      "list tables" = .inr (defaultIntent "list tables") ∧
    analyze_search_intent (fun _ => (none : Option Unit)) (.ok "x{not json}y")
      "list tables" = .inr (defaultIntent "list tables") ∧
    defaultIntent "list tables" = ⟨"any", "basic_info", ["schema", "name", "type"],
      "{schema}.{name} ({type})", "list tables"⟩ :=
  ⟨(classify_intent_fallback (fun _ => (none : Option Unit)) "list tables").1 "rate limited",
   (classify_intent_fallback (fun _ => (none : Option Unit)) "list tables").2.1
     "no json here" (by decide),
   (classify_intent_fallback (fun _ => (none : Option Unit)) "list tables").2.2.1
     "x{not json}y" "{not json}" (by decide) rfl,
   (classify_intent_fallback (fun _ => (none : Option Unit)) "list tables").2.2.2⟩

/-- `count()` agrees with the stored records when the collection exists. -/
theorem colCount_eq_getRecs (c : ClientState) (name : String) (cnt : Nat)
    (h : colCount c name = some cnt) : cnt = (getRecs c name).length := by
  unfold colCount getRecs at *
  cases hf : c.find? (fun p => p.1 == name) with
  | none => rw [hf] at h; exact absurd h (by simp)
  | some p => rw [hf] at h; simp at h; simp [h]

/-- A successful collection loop returns, in dict order, the first-`n`
candidates of each non-empty partition and nothing from empty ones. -/
theorem collectHitsLoop_ok (st : VSState) (env : SearchEnv) (query : String) (n : Nat)
    (L : List ObjType) (l : List Hit) (h : collectHitsLoop st env query n L = .ok l) :
    l = (L.map (fun ot =>
      if (getRecs st.client (st.handles ot)).length > 0
      then (env.queryHits (st.handles ot) query).take n else [])).flatten := by
  induction L generalizing l with
  | nil =>
    simp only [collectHitsLoop] at h
    injection h with h'
    simp [← h']
  | cons ot rest ih =>
    simp only [collectHitsLoop] at h
    cases h1 : colCount st.client (st.handles ot) with
    | none => rw [h1] at h; exact absurd h (by simp)
    | some cnt =>
      rw [h1] at h
      cases h2 : collectHitsLoop st env query n rest with
      | error m => rw [h2] at h; exact absurd h (by simp)
      | ok acc =>
        rw [h2] at h
        injection h with h'
        rw [← h', ih acc h2, colCount_eq_getRecs st.client (st.handles ot) cnt h1]
        simp

/-- C7: whenever the per-partition collection phase succeeds (each
partition's `count()` works, empty partitions contribute nothing, each
non-empty partition contributes at most `limit` candidates), `search`
succeeds and returns at most `limit` results, sorted by non-decreasing
distance, consisting of the globally lowest-distance candidates among
those collected: the collected multiset splits into the returned results
plus a remainder that is pointwise at least as distant. -/
theorem search_ranking (st : VSState) (env : SearchEnv) (query : String) (n : Nat)
    (l : List Hit) (h : collectHits st env query n = .ok l) :
    VectorStore.search st env query n = .ok ((l.insertionSort hitLE).take n) ∧
    ((l.insertionSort hitLE).take n).length ≤ n ∧
    List.Sorted hitLE ((l.insertionSort hitLE).take n) ∧
    l = (allObjTypes.map (fun ot =>
      if (getRecs st.client (st.handles ot)).length > 0
      then (env.queryHits (st.handles ot) query).take n else [])).flatten ∧
    (((l.insertionSort hitLE).take n) ++ ((l.insertionSort hitLE).drop n)).Perm l ∧
    (∀ a ∈ (l.insertionSort hitLE).take n, ∀ b ∈ (l.insertionSort hitLE).drop n,
      hitLE a b) := by
  have hsorted : List.Sorted hitLE (l.insertionSort hitLE) :=
    List.sorted_insertionSort hitLE l
  refine ⟨?_, ?_, ?_, ?_, ?_, ?_⟩
  · simp [VectorStore.search, h]
  · rw [List.length_take]
    exact min_le_left _ _
  · exact List.Pairwise.sublist (List.take_sublist n (l.insertionSort hitLE)) hsorted
  · exact collectHitsLoop_ok st env query n allObjTypes l h
  · rw [List.take_append_drop]
    exact List.perm_insertionSort hitLE l
  · have hp : List.Pairwise hitLE
        ((l.insertionSort hitLE).take n ++ (l.insertionSort hitLE).drop n) := by
      rw [List.take_append_drop]
      exact hsorted
    exact (List.pairwise_append.mp hp).2.2

/-- State for the C7 witness: the spec's search-ranking example — three
non-empty partitions whose candidates have distances [0.9], [0.1, 0.5],
[0.3] (scaled by 10 to the integer rationals [9], [1, 5], [3], which
preserves the ordering), and one empty partition. -/
def searchDemoState : VSState :=
  { client := [("tables", [⟨"t1", "d1", []⟩]), ("views", [⟨"v1", "d2", []⟩]),
      ("procedures", [⟨"p1", "d4", []⟩]), ("functions", [])]
    handles := ObjType.plural }

/-- Embedding engine for the C7 witness. -/
def searchDemoEnv : SearchEnv :=
  ⟨fun name _ =>
    if name = "tables" then [⟨"t1", "d1", [], 9⟩]
    else if name = "views" then [⟨"v1", "d2", [], 1⟩, ⟨"v2", "d3", [], 5⟩]
    else if name = "procedures" then [⟨"p1", "d4", [], 3⟩]
    else []⟩

/-- The candidates collected in the C7 witness scenario. -/
def searchDemoHits : List Hit :=
  [⟨"t1", "d1", [], 9⟩, ⟨"v1", "d2", [], 1⟩, ⟨"v2", "d3", [], 5⟩, ⟨"p1", "d4", [], 3⟩]

/-- C7 witness: with partition distances [0.9], [0.1, 0.5], [0.3] and
limit 2, search returns the two lowest distances 0.1 and 0.3, ascending. -/
theorem search_ranking_witness :
    collectHits searchDemoState searchDemoEnv "q" 2 = .ok searchDemoHits ∧
    VectorStore.search searchDemoState searchDemoEnv "q" 2 =
      .ok ((searchDemoHits.insertionSort hitLE).take 2) ∧
    (searchDemoHits.insertionSort hitLE).take 2 =
      [⟨"v1", "d2", [], 1⟩, ⟨"p1", "d4", [], 3⟩] ∧
    List.Sorted hitLE ((searchDemoHits.insertionSort hitLE).take 2) :=
  ⟨rfl,
   (search_ranking searchDemoState searchDemoEnv "q" 2 searchDemoHits rfl).1,
   by decide,
   (search_ranking searchDemoState searchDemoEnv "q" 2 searchDemoHits rfl).2.2.1⟩

/-- When `firstOccur` finds index `i`, the needle occurs at `i` and at no
earlier position. -/
theorem firstOccur_spec_some (hay needle : List Char) (i : Nat)
    (h : firstOccur hay needle = some i) :
    leadsWith needle (hay.drop i) = true ∧
      ∀ j < i, leadsWith needle (hay.drop j) = false := by
  induction hay generalizing i with
  | nil =>
    unfold firstOccur at h
    split at h
    · next hl =>
      injection h with h'
      subst h'
      exact ⟨by simpa using hl, fun j hj => absurd hj (Nat.not_lt_zero j)⟩
    · exact absurd h (by simp)
  | cons a t ih =>
    unfold firstOccur at h
    split at h
    · next hl =>
      injection h with h'
      subst h'
      exact ⟨by simpa using hl, fun j hj => absurd hj (Nat.not_lt_zero j)⟩
    · next hl =>
      cases hf : firstOccur t needle with
      | none => rw [hf] at h; exact absurd h (by simp)
      | some i' =>
        rw [hf] at h
        simp only [Option.map_some', Option.some_inj] at h
        obtain ⟨hlw, hmin⟩ := ih i' hf
        subst h
        refine ⟨by simpa using hlw, fun j hj => ?_⟩
        cases j with
        | zero =>
          simpa using Bool.not_eq_true _ ▸ hl
        | succ j' =>
          rw [List.drop_succ_cons]
          exact hmin j' (by omega)

/-- When `firstOccur` finds nothing, the needle occurs nowhere. -/
theorem firstOccur_spec_none (hay needle : List Char)
    (h : firstOccur hay needle = none) :
    ∀ j, leadsWith needle (hay.drop j) = false := by
  induction hay with
  | nil =>
    unfold firstOccur at h
    split at h
    · exact absurd h (by simp)
    · next hl =>
      intro j
      rw [List.drop_nil]
      simpa using hl
  | cons a t ih =>
    unfold firstOccur at h
    split at h
    · exact absurd h (by simp)
    · next hl =>
      have hf : firstOccur t needle = none := by
        cases hf : firstOccur t needle with
        | none => rfl
        | some i => rw [hf] at h; exact absurd h (by simp)
      intro j
      cases j with
      | zero => simpa using hl
      | succ j' =>
        rw [List.drop_succ_cons]
        exact ih hf j'

/-- C6 (amended): `get_documentation_summary` truncates the best match's
content at the first occurrence of the literal `"\n\nAnalysis:"` — the
source marker has **no trailing newline** — returning exactly the content
before that first occurrence; content without that marker is returned
unchanged; and when the search finds no match it returns the fixed
"No documentation found" message instead of failing. -/
theorem summary_truncation (st : VSState) (env : SearchEnv) (schema nm ot : String) :
    (VectorStore.search st env (schema ++ "." ++ nm ++ " " ++ ot) 1 = .ok [] →
      get_documentation_summary st env schema nm ot =
        "No documentation found for " ++ ot ++ " " ++ schema ++ "." ++ nm) ∧
    (∀ r rest,
      VectorStore.search st env (schema ++ "." ++ nm ++ " " ++ ot) 1 = .ok (r :: rest) →
      (∀ i, pyFind r.content "\n\nAnalysis:" = some i →
        get_documentation_summary st env schema nm ot = strTake r.content i ∧
        leadsWith ("\n\nAnalysis:" : String).data (r.content.data.drop i) = true ∧
        (∀ j < i, leadsWith ("\n\nAnalysis:" : String).data (r.content.data.drop j) = false)) ∧
      (pyFind r.content "\n\nAnalysis:" = none →
        get_documentation_summary st env schema nm ot = r.content ∧
        ∀ j, leadsWith ("\n\nAnalysis:" : String).data (r.content.data.drop j) = false)) := by
  refine ⟨fun h => ?_, fun r rest h => ⟨fun i hi => ?_, fun hn => ?_⟩⟩
  · simp [get_documentation_summary, h]
  · obtain ⟨h1, h2⟩ := firstOccur_spec_some r.content.data
      ("\n\nAnalysis:" : String).data i hi
    exact ⟨by simp [get_documentation_summary, h, hi], h1, h2⟩
  · refine ⟨by simp [get_documentation_summary, h, hn], ?_⟩
    exact firstOccur_spec_none r.content.data ("\n\nAnalysis:" : String).data hn

/-- State for the C6 examples: one record in the tables partition. -/
def summaryDemoState : VSState :=
  { client := [("tables", [⟨"dbo.T", "", []⟩]), ("views", []), ("procedures", []),
      ("functions", [])]
    handles := ObjType.plural }

/-- Stored content whose analysis header is not followed by a newline. -/
def summaryEnvNoNl : SearchEnv :=
  ⟨fun _ _ => [⟨"dbo.T", "X\n\nAnalysis: note", [], 0⟩]⟩

/-- Stored content with the full `"\n\nAnalysis:\n"` separator. -/
def summaryEnvNl : SearchEnv :=
  ⟨fun _ _ => [⟨"dbo.T", "Table: d.T\n\nAnalysis:\nsome text", [], 0⟩]⟩

/-- C6, counterexample.  The claim fixes the marker as `"\n\nAnalysis:\n"`
and says content not containing it is returned unchanged.  The source
truncates at `"\n\nAnalysis:"` (no trailing newline): for stored content
`"X\n\nAnalysis: note"`, which does not contain the claim's marker, the
summary is `"X"`, not the content unchanged. -/
theorem summary_truncation_counterexample :
    pyFind "X\n\nAnalysis: note" "\n\nAnalysis:\n" = none ∧
    get_documentation_summary summaryDemoState summaryEnvNoNl "dbo" "T" "table" = "X" ∧
    ("X" : String) ≠ "X\n\nAnalysis: note" := by
  refine ⟨by decide, rfl, by decide⟩

/-- C6 witness: truncation at the marker, and the fixed message when the
search returns nothing. -/
theorem summary_truncation_witness :
    get_documentation_summary summaryDemoState summaryEnvNl "dbo" "T" "table" =
      strTake "Table: d.T\n\nAnalysis:\nsome text" 10 ∧
    strTake "Table: d.T\n\nAnalysis:\nsome text" 10 = "Table: d.T" ∧
    get_documentation_summary VectorStore.init ⟨fun _ _ => []⟩ "dbo" "T" "table" =
      "No documentation found for table dbo.T" :=
  ⟨(((summary_truncation summaryDemoState summaryEnvNl "dbo" "T" "table").2
      ⟨"dbo.T", "Table: d.T\n\nAnalysis:\nsome text", [], 0⟩ [] rfl).1 10 (by decide)).1,
   by decide,
   (summary_truncation VectorStore.init ⟨fun _ _ => []⟩ "dbo" "T" "table").1 rfl⟩

/-- A successful `get_or_create_collection` leaves the named collection
present and preserves every existing collection. -/
theorem clientGetOrCreate_ok (o : Oracle) (t : Nat) (c : ClientState) (name : String)
    (c' : ClientState) (t' : Nat) (h : clientGetOrCreate o t c name = (.ok c', t')) :
    hasCol c' name = true ∧ ∀ m, hasCol c m = true → hasCol c' m = true := by
  unfold clientGetOrCreate at h
  cases ho : o t with
  | some m => rw [ho] at h; exact absurd h (by simp)
  | none =>
    rw [ho] at h
    simp only [Prod.mk.injEq, Except.ok.injEq] at h
    obtain ⟨h1, -⟩ := h
    subst h1
    cases hc : hasCol c name with
    | true => simp [hc]
    | false =>
      refine ⟨?_, ?_⟩
      · simp [hasCol, addCol, List.any_append]
      · intro m hm
        simp only [hasCol] at hm
        simp [hasCol, addCol, List.any_append, hm]

/-- The recovery loop never deletes a collection. -/
theorem recoveryLoop_mono (o : Oracle) (L : List ObjType) (t : Nat) (st : VSState)
    (res : Except String Unit) (st2 : VSState) (t2 : Nat)
    (h : recoveryLoop o L t st = (res, st2, t2)) :
    ∀ n, hasCol st.client n = true → hasCol st2.client n = true := by
  induction L generalizing t st with
  | nil =>
    simp only [recoveryLoop, Prod.mk.injEq] at h
    obtain ⟨-, h2, -⟩ := h
    subst h2
    exact fun n hn => hn
  | cons ot rest ih =>
    simp only [recoveryLoop] at h
    rcases hg : clientGetOrCreate o t st.client ot.plural with ⟨res1, t1⟩
    rw [hg] at h
    cases res1 with
    | error m =>
      simp only [Prod.mk.injEq] at h
      obtain ⟨-, h2, -⟩ := h
      subst h2
      exact fun n hn => hn
    | ok c =>
      intro n hn
      exact ih _ _ h n ((clientGetOrCreate_ok o t st.client ot.plural c t1 hg).2 n hn)

/-- Each handle is either untouched or set to its partition's plural name. -/
theorem recoveryLoop_handles (o : Oracle) (L : List ObjType) (t : Nat) (st : VSState)
    (res : Except String Unit) (st2 : VSState) (t2 : Nat)
    (h : recoveryLoop o L t st = (res, st2, t2)) :
    ∀ x, st2.handles x = st.handles x ∨ st2.handles x = x.plural := by
  induction L generalizing t st with
  | nil =>
    simp only [recoveryLoop, Prod.mk.injEq] at h
    obtain ⟨-, h2, -⟩ := h
    subst h2
    exact fun x => Or.inl rfl
  | cons ot rest ih =>
    simp only [recoveryLoop] at h
    rcases hg : clientGetOrCreate o t st.client ot.plural with ⟨res1, t1⟩
    rw [hg] at h
    cases res1 with
    | error m =>
      simp only [Prod.mk.injEq] at h
      obtain ⟨-, h2, -⟩ := h
      subst h2
      exact fun x => Or.inl rfl
    | ok c =>
      intro x
      rcases ih _ _ h x with hx | hx
      · by_cases hxo : x = ot
        · subst hxo
          right
          rw [hx]
          simp
        · left
          rw [hx]
          simp [hxo]
      · exact Or.inr hx

/-- A fully successful recovery loop leaves every listed partition present
with its handle pointing at the plural name. -/
theorem recoveryLoop_ok (o : Oracle) (L : List ObjType) (t : Nat) (st : VSState)
    (st2 : VSState) (t2 : Nat) (h : recoveryLoop o L t st = (.ok (), st2, t2)) :
    ∀ ot ∈ L, hasCol st2.client ot.plural = true ∧ st2.handles ot = ot.plural := by
  induction L generalizing t st with
  | nil => intro ot hot; exact absurd hot (List.not_mem_nil ot)
  | cons ot0 rest ih =>
    simp only [recoveryLoop] at h
    rcases hg : clientGetOrCreate o t st.client ot0.plural with ⟨res1, t1⟩
    rw [hg] at h
    cases res1 with
    | error m => exact absurd h (by simp)
    | ok c =>
      intro ot hot
      rcases List.mem_cons.mp hot with rfl | hot
      · constructor
        · exact recoveryLoop_mono o rest t1 _ _ st2 t2 h ot.plural
            (clientGetOrCreate_ok o t st.client ot.plural c t1 hg).1
        · rcases recoveryLoop_handles o rest t1 _ _ st2 t2 h ot with hx | hx
          · rw [hx]; simp
          · exact hx
      · exact ih _ _ h ot hot

/-- The `clear` exception handler either restores all four partitions and
re-signals the original message, or raises the combined message naming
both failures. -/
theorem clearRecover_cases (o : Oracle) (em : String) (st : VSState) (t : Nat)
    (E : String) (st2 : VSState) (t2 : Nat)
    (h : clearRecover o em st t = (.error E, st2, t2)) :
    (E = em ∧ ∀ ot : ObjType, hasCol st2.client ot.plural = true ∧
      st2.handles ot = ot.plural) ∨
    ∃ m2, E = em ++ ". Additionally, cleanup failed: " ++ m2 := by
  unfold clearRecover at h
  rcases hr : recoveryLoop o allObjTypes t st with ⟨res, stR, tR⟩
  rw [hr] at h
  cases res with
  | ok u =>
    simp only [Prod.mk.injEq, Except.error.injEq] at h
    obtain ⟨h1, h2, -⟩ := h
    subst h1
    subst h2
    cases u
    exact Or.inl ⟨rfl, fun ot => recoveryLoop_ok o allObjTypes t st stR tR hr ot
      (by cases ot <;> simp [allObjTypes])⟩
  | error m2 =>
    simp only [Prod.mk.injEq, Except.error.injEq] at h
    obtain ⟨h1, -, -⟩ := h
    exact Or.inr ⟨m2, h1.symm⟩

/-- C5: whenever `clear()` fails, either (a) the recovery pass recreated
all four partitions — so none is left missing, a subsequent upsert into
every partition succeeds (with a well-behaved client), and the signalled
error re-raises the original message under the
"Failed to clear vector store: " prefix — or (b) the recovery itself also
failed and the signalled error message names both the original failure
and the recovery failure. -/
theorem clear_recovery (o : Oracle) (st : VSState) (E : String) (st2 : VSState) (t2 : Nat)
    (h : VectorStore.clear o st 0 = (.error E, st2, t2)) :
    ((∀ ot : ObjType, hasCol st2.client ot.plural = true ∧ st2.handles ot = ot.plural) ∧
      (∀ (schema nm content : String) (md : List (String × PyVal)) (ot : ObjType),
        (add_documentation (fun _ => none) st2 0 schema nm ot content md).1 = .ok ()) ∧
      ∃ m, E = "Failed to clear vector store: " ++ m) ∨
    ∃ m1 m2, E = "Failed to clear vector store: " ++ m1 ++
      ". Additionally, cleanup failed: " ++ m2 := by
  have hupsert : ∀ st' : VSState,
      (∀ ot : ObjType, hasCol st'.client ot.plural = true ∧ st'.handles ot = ot.plural) →
      ∀ (schema nm content : String) (md : List (String × PyVal)) (ot : ObjType),
        (add_documentation (fun _ => none) st' 0 schema nm ot content md).1 = .ok () := by
    intro st' hcols schema nm content md ot
    simp [add_documentation, clientUpsert, (hcols ot).2, (hcols ot).1]
  unfold VectorStore.clear at h
  rcases hcc : clearCollectionsLoop o allObjTypes 0 st with ⟨res1, st1, t1⟩
  rw [hcc] at h
  cases res1 with
  | error m =>
    rcases clearRecover_cases o _ st1 t1 E st2 t2 h with ⟨hE, hcols⟩ | ⟨m2, hE⟩
    · exact Or.inl ⟨hcols, hupsert st2 hcols, m, hE⟩
    · exact Or.inr ⟨m, m2, hE⟩
  | ok u =>
    dsimp only at h
    rcases hrs : clientReset o t1 with ⟨res2, tr2⟩
    rw [hrs] at h
    cases res2 with
    | ok c => exact absurd h (by simp)
    | error m =>
      rcases clearRecover_cases o _ st1 tr2 E st2 t2 h with ⟨hE, hcols⟩ | ⟨m2, hE⟩
      · exact Or.inl ⟨hcols, hupsert st2 hcols, m, hE⟩
      · exact Or.inr ⟨m, m2, hE⟩

/-- Oracle for the C5 witness: the very first client call (the delete of
the tables collection) raises "boom"; everything afterwards succeeds. -/
def clearFailOracle : Oracle := fun t => if t = 0 then some "boom" else none

/-- C5 witness: a clear whose drop phase fails at the first delete; the
recovery succeeds, so the first disjunct holds at this input. -/
theorem clear_recovery_witness :
    ((∀ ot : ObjType,
        hasCol (VectorStore.clear clearFailOracle VectorStore.init 0).2.1.client
          ot.plural = true ∧
        (VectorStore.clear clearFailOracle VectorStore.init 0).2.1.handles ot = ot.plural) ∧
      (∀ (schema nm content : String) (md : List (String × PyVal)) (ot : ObjType),
        (add_documentation (fun _ => none)
          (VectorStore.clear clearFailOracle VectorStore.init 0).2.1 0
          schema nm ot content md).1 = .ok ()) ∧
      ∃ m, "Failed to clear vector store: boom" = "Failed to clear vector store: " ++ m) ∨
    ∃ m1 m2, "Failed to clear vector store: boom" = "Failed to clear vector store: " ++ m1 ++
      ". Additionally, cleanup failed: " ++ m2 :=
  clear_recovery clearFailOracle VectorStore.init "Failed to clear vector store: boom"
    (VectorStore.clear clearFailOracle VectorStore.init 0).2.1
    (VectorStore.clear clearFailOracle VectorStore.init 0).2.2 rfl

end MSSQLDocumenter
